import Mathlib

/-!
Verification of the EA stress-test workflow engine (Python sources under
`src/ea_stress/`) against its natural-language specification.

The Python code is shallowly embedded: dataclasses become structures, JSON
values become an inductive `Json` type, wall-clock timestamps become explicit
`now : String` parameters, and filesystem effects become explicit values
(file contents in, written files out).  Modelling conventions:

* JSON numbers are modelled as `Int` (no claim depends on non-integral
  numeric values).  Python's `isinstance(x, (int, float))` accepts `bool`
  values because `bool` is a subclass of `int`; the embedding mirrors this
  with `Json.pyIsNumber`.
* Python truthiness (`if error:`, `if metadata:`, `dict.get(k, False)`)
  is embedded explicitly (`pyTruthyStr`, etc.), never simplified to
  `Option.isSome`.
* `datetime.utcnow().isoformat()` is modelled by an explicit `now` argument;
  all stamps made during a single call use that one value.
* Serialized file contents are modelled as structured values rather than
  byte strings; `json.dump` is injective on distinct values, so byte-for-byte
  equality of written JSON files corresponds to equality of these values.
-/

namespace EAStress

/-- Python `dict` access `d.get(k)`: first binding wins (keys are unique in
an actual dict, so any binding wins). -/
def alistGet {κ α : Type} [DecidableEq κ] (k : κ) : List (κ × α) → Option α
  | [] => none
  | (k2, v) :: rest => if k = k2 then some v else alistGet k rest

/-- Python `d[k] = v`: in-place update when the key is present, append in
insertion order when absent. -/
def alistSet {κ α : Type} [DecidableEq κ] (l : List (κ × α)) (k : κ) (v : α) :
    List (κ × α) :=
  if l.any (fun p => p.1 = k) then
    l.map (fun p => if p.1 = k then (k, v) else p)
  else
    l ++ [(k, v)]

/-- JSON values as produced by Python's `json.load`. -/
inductive Json where
  | null : Json
  | bool (b : Bool) : Json
  | num (n : Int) : Json
  | str (s : String) : Json
  | arr (items : List Json) : Json
  | obj (fields : List (String × Json)) : Json

namespace Json

/-- Python `d[k]` / `d.get(k)` on a JSON object (first binding wins,
matching dict-key uniqueness). -/
def lookup : Json → String → Option Json
  | .obj fields, k => alistGet k fields
  | _, _ => none

/-- Python `k in d` for a JSON object. -/
def hasKey (j : Json) (k : String) : Bool :=
  (j.lookup k).isSome

/-- `isinstance(x, (int, float))`: Python `bool` is a subclass of `int`,
so `True`/`False` pass this check. -/
def pyIsNumber : Json → Bool
  | .num _ => true
  | .bool _ => true
  | _ => false

/-- `isinstance(x, bool)`. -/
def pyIsBool : Json → Bool
  | .bool _ => true
  | _ => false

/-- `isinstance(x, str)`. -/
def pyIsStr : Json → Bool
  | .str _ => true
  | _ => false

/-- `isinstance(x, dict)`. -/
def pyIsDict : Json → Bool
  | .obj _ => true
  | _ => false

/-- `isinstance(x, list)`. -/
def pyIsList : Json → Bool
  | .arr _ => true
  | _ => false

/-- `isinstance(x, (str, int, float, bool))` (scalars; `bool ⊆ int`). -/
def pyIsScalar : Json → Bool
  | .str _ => true
  | .num _ => true
  | .bool _ => true
  | _ => false

/-- Python truthiness of a JSON value (`if x:`). -/
def pyTruthy : Json → Bool
  | .null => false
  | .bool b => b
  | .num n => n ≠ 0
  | .str s => s ≠ ""
  | .arr items => !items.isEmpty
  | .obj fields => !fields.isEmpty

end Json

/-- Python truthiness of an optional string (`if error:`): `None` and the
empty string are falsy. -/
def pyTruthyStr : Option String → Bool
  | none => false
  | some s => s ≠ ""

/-- `dict.update`: keys already present are overwritten in place, new keys
are appended in iteration order. -/
def dictUpdate (old new : List (String × Json)) : List (String × Json) :=
  new.foldl
    (fun acc kv =>
      if acc.any (fun p => p.1 = kv.1) then
        acc.map (fun p => if p.1 = kv.1 then (p.1, kv.2) else p)
      else
        acc ++ [kv])
    old

/-! ## `models.py`: status enums, `StepResult`, `WorkflowState` -/

/-- `WorkflowStatus` enum from `models.py`. -/
inductive WorkflowStatus where
  | pending
  | running
  | completed
  | failed
  | paused
  deriving DecidableEq, Repr

/-- `.value` of a `WorkflowStatus` member. -/
def WorkflowStatus.value : WorkflowStatus → String
  | .pending => "pending"
  | .running => "running"
  | .completed => "completed"
  | .failed => "failed"
  | .paused => "paused"

/-- `WorkflowStatus(s)` enum construction (raises on unknown → `none`). -/
def workflowStatusOfString : String → Option WorkflowStatus
  | "pending" => some .pending
  | "running" => some .running
  | "completed" => some .completed
  | "failed" => some .failed
  | "paused" => some .paused
  | _ => none

/-- `StepStatus` enum from `models.py`. -/
inductive StepStatus where
  | pending
  | running
  | completed
  | failed
  | skipped
  deriving DecidableEq, Repr

/-- `.value` of a `StepStatus` member. -/
def StepStatus.value : StepStatus → String
  | .pending => "pending"
  | .running => "running"
  | .completed => "completed"
  | .failed => "failed"
  | .skipped => "skipped"

/-- `StepStatus(s)` enum construction (raises on unknown → `none`). -/
def stepStatusOfString : String → Option StepStatus
  | "pending" => some .pending
  | "running" => some .running
  | "completed" => some .completed
  | "failed" => some .failed
  | "skipped" => some .skipped
  | _ => none

/-- `StepResult` dataclass. -/
structure StepResult where
  step_id : String
  status : StepStatus
  started_at : Option String := none
  completed_at : Option String := none
  error : Option String := none
  metadata : List (String × Json) := []

/-- `StepResult.to_dict` output: the exact keys it emits, as a record.
(`status` is serialized via `.value`.) -/
structure StepResultDict where
  step_id : String
  status : String
  started_at : Option String
  completed_at : Option String
  error : Option String
  metadata : List (String × Json)

/-- `StepResult.to_dict`. -/
def StepResult.to_dict (s : StepResult) : StepResultDict :=
  { step_id := s.step_id
    status := s.status.value
    started_at := s.started_at
    completed_at := s.completed_at
    error := s.error
    metadata := s.metadata }

/-- `StepResult.from_dict` (the `StepStatus(...)` call raises on an unknown
status string, modelled by `Option`). -/
def StepResult.from_dict (d : StepResultDict) : Option StepResult :=
  (stepStatusOfString d.status).map fun st =>
    { step_id := d.step_id
      status := st
      started_at := d.started_at
      completed_at := d.completed_at
      error := d.error
      metadata := d.metadata }

/-- `OptimizationPass` dataclass (serialized by `asdict` and reconstructed
field-for-field by `OptimizationPass(**dict)`; its dict form is identified
with the structure itself). -/
structure OptimizationPass where
  pass_number : Int
  ini_file : Option String := none
  started_at : Option String := none
  completed_at : Option String := none
  results_file : Option String := none
  top_passes : List Json := []
  selected_for_backtest : List Int := []

/-- `WorkflowState` dataclass. -/
structure WorkflowState where
  workflow_id : String
  ea_name : String
  ea_path : String
  status : WorkflowStatus
  current_step : Option String := none
  created_at : String := ""
  started_at : Option String := none
  completed_at : Option String := none
  config_snapshot : List (String × Json) := []
  steps : List (String × StepResult) := []
  compiled_ex5_path : Option String := none
  extracted_parameters : List Json := []
  parameter_analysis : List (String × Json) := []
  optimization_pass1 : Option OptimizationPass := none
  optimization_pass2 : Option OptimizationPass := none
  improvement_proposal : Option Json := none
  applied_patches : List String := []
  backtest_results : List Json := []
  monte_carlo_results : Option Json := none
  stress_test_results : Option Json := none
  forward_test_results : Option Json := none
  go_live_score : Option Int := none
  gate_results : List (String × Bool) := []
  symbol_pairs : List String := []
  errors : List String := []
  warnings : List String := []

namespace WorkflowState

/-- `add_error`: appends a timestamped entry to the error log. -/
def add_error (w : WorkflowState) (now error : String) : WorkflowState :=
  { w with errors := w.errors ++ ["[" ++ now ++ "] " ++ error] }

/-- `add_warning`: appends a timestamped entry to the warning log. -/
def add_warning (w : WorkflowState) (now warning : String) : WorkflowState :=
  { w with warnings := w.warnings ++ ["[" ++ now ++ "] " ++ warning] }

/-- The `valid_transitions` adjacency table of `transition_to`. -/
def validTransitions : WorkflowStatus → List WorkflowStatus
  | .pending => [.running]
  | .running => [.completed, .failed, .paused]
  | .paused => [.running, .failed]
  | .failed => [.running]
  | .completed => []

/-- `transition_to`: validates the move against the adjacency table; on an
illegal move appends a warning and returns `False` with state otherwise
unchanged; on a legal move sets the status, stamps `started_at` on first
entry into running (guarded by Python truthiness of the old value) and
stamps `completed_at` on every entry into completed/failed. -/
def transition_to (w : WorkflowState) (now : String) (new_status : WorkflowStatus) :
    Bool × WorkflowState :=
  if new_status ∈ validTransitions w.status then
    let w1 := { w with status := new_status }
    let w2 :=
      if new_status = WorkflowStatus.running ∧ ¬ pyTruthyStr w1.started_at then
        { w1 with started_at := some now }
      else w1
    let w3 :=
      if new_status = WorkflowStatus.completed ∨ new_status = WorkflowStatus.failed then
        { w2 with completed_at := some now }
      else w2
    (true, w3)
  else
    (false,
      w.add_warning now
        ("Invalid state transition: " ++ w.status.value ++ " -> " ++ new_status.value))

/-- `start`. -/
def start (w : WorkflowState) (now : String) : Bool × WorkflowState :=
  w.transition_to now WorkflowStatus.running

/-- `pause`. -/
def pause (w : WorkflowState) (now : String) : Bool × WorkflowState :=
  w.transition_to now WorkflowStatus.paused

/-- `resume`. -/
def resume (w : WorkflowState) (now : String) : Bool × WorkflowState :=
  w.transition_to now WorkflowStatus.running

/-- `complete`. -/
def complete (w : WorkflowState) (now : String) : Bool × WorkflowState :=
  w.transition_to now WorkflowStatus.completed

/-- `fail(error)`: logs the error (when truthy) *before* attempting the
transition, then attempts `transition_to(FAILED)`. -/
def fail (w : WorkflowState) (now : String) (error : Option String) :
    Bool × WorkflowState :=
  let w1 := if pyTruthyStr error then w.add_error now (error.getD "") else w
  w1.transition_to now WorkflowStatus.failed

/-- `retry`. -/
def retry (w : WorkflowState) (now : String) : Bool × WorkflowState :=
  w.transition_to now WorkflowStatus.running

/-- Write `v` under key `k` in the step table (in-place update when present,
append when absent — Python dict assignment). -/
def setStep (steps : List (String × StepResult)) (k : String) (v : StepResult) :
    List (String × StepResult) :=
  alistSet steps k v

/-- `update_step`: creates the `StepResult` on first touch, sets its status,
stamps `started_at` on first entry into running (Python truthiness guard),
stamps `completed_at` on entry into completed/failed/skipped, sets `error`
and merges `metadata` when truthy, and always points `current_step` at the
touched step. -/
def update_step (w : WorkflowState) (now step_id : String) (status : StepStatus)
    (error : Option String := none)
    (metadata : Option (List (String × Json)) := none) : WorkflowState :=
  let cur : StepResult :=
    match alistGet step_id w.steps with
    | none => { step_id := step_id, status := status }
    | some s => { s with status := status }
  let cur :=
    if status = StepStatus.running ∧ ¬ pyTruthyStr cur.started_at then
      { cur with started_at := some now }
    else cur
  let cur :=
    if status = StepStatus.completed ∨ status = StepStatus.failed ∨
        status = StepStatus.skipped then
      { cur with completed_at := some now }
    else cur
  let cur := if pyTruthyStr error then { cur with error := error } else cur
  let cur :=
    match metadata with
    | some m => if !m.isEmpty then { cur with metadata := dictUpdate cur.metadata m } else cur
    | none => cur
  { w with steps := setStep w.steps step_id cur, current_step := some step_id }

end WorkflowState

/-- `WorkflowState.to_dict` output: the serialized snapshot, with `status`
as a string and each step serialized via `StepResult.to_dict`; every other
field passes through `asdict` unchanged (nested `OptimizationPass` dicts are
identified with the structures). -/
structure WorkflowStateDict where
  workflow_id : String
  ea_name : String
  ea_path : String
  status : String
  current_step : Option String
  created_at : String
  started_at : Option String
  completed_at : Option String
  config_snapshot : List (String × Json)
  steps : List (String × StepResultDict)
  compiled_ex5_path : Option String
  extracted_parameters : List Json
  parameter_analysis : List (String × Json)
  optimization_pass1 : Option OptimizationPass
  optimization_pass2 : Option OptimizationPass
  improvement_proposal : Option Json
  applied_patches : List String
  backtest_results : List Json
  monte_carlo_results : Option Json
  stress_test_results : Option Json
  forward_test_results : Option Json
  go_live_score : Option Int
  gate_results : List (String × Bool)
  symbol_pairs : List String
  errors : List String
  warnings : List String

/-- `WorkflowState.to_dict`. -/
def WorkflowState.to_dict (w : WorkflowState) : WorkflowStateDict :=
  { workflow_id := w.workflow_id
    ea_name := w.ea_name
    ea_path := w.ea_path
    status := w.status.value
    current_step := w.current_step
    created_at := w.created_at
    started_at := w.started_at
    completed_at := w.completed_at
    config_snapshot := w.config_snapshot
    steps := w.steps.map (fun p => (p.1, p.2.to_dict))
    compiled_ex5_path := w.compiled_ex5_path
    extracted_parameters := w.extracted_parameters
    parameter_analysis := w.parameter_analysis
    optimization_pass1 := w.optimization_pass1
    optimization_pass2 := w.optimization_pass2
    improvement_proposal := w.improvement_proposal
    applied_patches := w.applied_patches
    backtest_results := w.backtest_results
    monte_carlo_results := w.monte_carlo_results
    stress_test_results := w.stress_test_results
    forward_test_results := w.forward_test_results
    go_live_score := w.go_live_score
    gate_results := w.gate_results
    symbol_pairs := w.symbol_pairs
    errors := w.errors
    warnings := w.warnings }

/-- The dict comprehension of `from_dict` over the serialized steps
(`StepStatus(...)` raises — i.e. `none` — as soon as one entry fails). -/
def mapStepsFromDict : List (String × StepResultDict) →
    Option (List (String × StepResult))
  | [] => some []
  | (k, d) :: rest => do
      let s ← StepResult.from_dict d
      let tail ← mapStepsFromDict rest
      pure ((k, s) :: tail)

/-- `WorkflowState.from_dict` (enum reconstruction raises on unknown status
strings, modelled by `Option`; `OptimizationPass(**d)` reconstruction is the
identity under the dict identification). -/
def WorkflowState.from_dict (d : WorkflowStateDict) : Option WorkflowState := do
  let status ← workflowStatusOfString d.status
  let steps ← mapStepsFromDict d.steps
  pure
    { workflow_id := d.workflow_id
      ea_name := d.ea_name
      ea_path := d.ea_path
      status := status
      current_step := d.current_step
      created_at := d.created_at
      started_at := d.started_at
      completed_at := d.completed_at
      config_snapshot := d.config_snapshot
      steps := steps
      compiled_ex5_path := d.compiled_ex5_path
      extracted_parameters := d.extracted_parameters
      parameter_analysis := d.parameter_analysis
      optimization_pass1 := d.optimization_pass1
      optimization_pass2 := d.optimization_pass2
      improvement_proposal := d.improvement_proposal
      applied_patches := d.applied_patches
      backtest_results := d.backtest_results
      monte_carlo_results := d.monte_carlo_results
      stress_test_results := d.stress_test_results
      forward_test_results := d.forward_test_results
      go_live_score := d.go_live_score
      gate_results := d.gate_results
      symbol_pairs := d.symbol_pairs
      errors := d.errors
      warnings := d.warnings }

/-! ## Configuration constants (`config.py`) -/

/-- `RUNS_DIR`. -/
def RUNS_DIR : String := "runs"

/-- `LLM_IMPROVEMENT_ENABLED`. -/
def LLM_IMPROVEMENT_ENABLED : Bool := true

/-- `LLM_REVIEW_REQUIRED`. -/
def LLM_REVIEW_REQUIRED : Bool := true

/-- `LLM_ALLOW_NEW_LOGIC`. -/
def LLM_ALLOW_NEW_LOGIC : Bool := true

/-- `LLM_MAX_REFINEMENT_CYCLES`. -/
def LLM_MAX_REFINEMENT_CYCLES : Nat := 1

/-! ## Filesystem mailbox model

File contents are parsed values: a JSON document, an unparseable document,
or plain text (EA sources, patch files). -/

/-- Content of a file in the mailbox / analysis directories. -/
inductive FileContent where
  | jsonFile (j : Json)
  | badJson (raw : String)
  | textFile (s : String)

/-- A `pathlib.Path`: parent directory and file name (`dir / name`). -/
structure FPath where
  dir : String
  name : String
  deriving DecidableEq

/-- `str(path)`. -/
def FPath.render (p : FPath) : String := p.dir ++ "/" ++ p.name

/-- The filesystem: a path → content map. -/
abbrev FS := List (FPath × FileContent)

/-- Apply a list of writes (in order) to the filesystem. -/
def applyWrites (fs : FS) : List (FPath × FileContent) → FS
  | [] => fs
  | (p, c) :: rest => applyWrites (alistSet fs p c) rest

/-- `j[k]` returning JSON null when absent (used only where the code has
already validated presence, where Python would raise otherwise). -/
def Json.get (j : Json) (k : String) : Json :=
  (j.lookup k).getD Json.null

/-- `x is None`. -/
def Json.isNull : Json → Bool
  | .null => true
  | _ => false

/-- Unwrap a validated JSON array. -/
def Json.asArr : Json → List Json
  | .arr l => l
  | _ => []

/-- Unwrap a validated JSON boolean. -/
def Json.asBool : Json → Bool
  | .bool b => b
  | _ => false

/-! ## `step04_analyze.py` -/

/-- `AnalysisResult` dataclass. -/
structure AnalysisResult where
  wide_validation_params : Json
  optimization_ranges : Json
  request_path : String
  response_path : String
  status : String
  validation_errors : List String := []

/-- `AnalysisResult.passed_gate`. -/
def AnalysisResult.passed_gate (r : AnalysisResult) : Bool :=
  r.status = "validated"

/-- The per-key check of the `wide_validation_params` loop in
`validate_response_schema`: values must be `(str, int, float, bool)`. -/
def wideParamsErrors : List (String × Json) → List String
  | [] => []
  | (k, v) :: rest =>
    (if !v.pyIsScalar then
        ["wide_validation_params[\x27" ++ k ++
          "\x27] must be string, number, or boolean"]
      else []) ++ wideParamsErrors rest

/-- The `optimize=true` numeric-field check (`start`/`step`/`stop`). -/
def optNumFieldErrors (i : Nat) (item : Json) (f : String) : List String :=
  if !item.hasKey f then
    ["optimization_ranges[" ++ toString i ++ "] with optimize=true missing: " ++ f]
  else if !(item.get f).pyIsNumber then
    ["optimization_ranges[" ++ toString i ++ "]." ++ f ++ " must be a number"]
  else []

/-- All violations of one `optimization_ranges` item (`validate_response_schema`
accumulates them in check order; a non-dict item short-circuits via
`continue`). -/
def optRangeItemErrors (i : Nat) (item : Json) : List String :=
  if !item.pyIsDict then
    ["optimization_ranges[" ++ toString i ++ "] must be an object/dict"]
  else
    (if !item.hasKey "name" then
        ["optimization_ranges[" ++ toString i ++ "] missing required field: name"]
      else if !(item.get "name").pyIsStr then
        ["optimization_ranges[" ++ toString i ++ "].name must be a string"]
      else []) ++
    (if !item.hasKey "optimize" then
        ["optimization_ranges[" ++ toString i ++ "] missing required field: optimize"]
      else if !(item.get "optimize").pyIsBool then
        ["optimization_ranges[" ++ toString i ++ "].optimize must be a boolean"]
      else []) ++
    (if ((item.lookup "optimize").getD (Json.bool false)).pyTruthy then
        optNumFieldErrors i item "start" ++ optNumFieldErrors i item "step" ++
          optNumFieldErrors i item "stop"
      else
        (if !item.hasKey "default" then
          ["optimization_ranges[" ++ toString i ++ "] with optimize=false missing: default"]
        else if !(item.get "default").pyIsNumber then
          ["optimization_ranges[" ++ toString i ++ "].default must be a number"]
        else [])) ++
    (if item.hasKey "category" && !(item.get "category").pyIsStr then
        ["optimization_ranges[" ++ toString i ++ "].category must be a string"]
      else []) ++
    (if item.hasKey "rationale" && !(item.get "rationale").pyIsStr then
        ["optimization_ranges[" ++ toString i ++ "].rationale must be a string"]
      else [])

/-- The `enumerate(opt_ranges)` loop of `validate_response_schema`. -/
def optRangesErrors : Nat → List Json → List String
  | _, [] => []
  | i, item :: rest => optRangeItemErrors i item ++ optRangesErrors (i + 1) rest

/-- `validate_response_schema` (step 4): returns the accumulated list of
violations; empty when valid.  When a required top-level field is missing it
returns the missing-field errors immediately. -/
def validateResponseSchemaStep4 (response : Json) : List String :=
  let topErrors :=
    (if !response.hasKey "wide_validation_params" then
        ["Missing required field: wide_validation_params"] else []) ++
    (if !response.hasKey "optimization_ranges" then
        ["Missing required field: optimization_ranges"] else [])
  if !topErrors.isEmpty then topErrors
  else
    let wideErrs :=
      match response.get "wide_validation_params" with
      | Json.obj fields => wideParamsErrors fields
      | _ => ["wide_validation_params must be an object/dict"]
    let optErrs :=
      match response.get "optimization_ranges" with
      | Json.arr items => optRangesErrors 0 items
      | _ => ["optimization_ranges must be an array/list"]
    wideErrs ++ optErrs

/-- The constant `instructions` block of `write_analysis_request`. -/
def step4Instructions : Json :=
  Json.obj
    [("task", .str "Analyze EA parameters and provide optimization configuration"),
     ("required_outputs", .obj
        [("wide_validation_params",
          .str "Dictionary with loose parameter values to maximize trade generation (Step 5)"),
         ("optimization_ranges",
          .str "List of parameter ranges for genetic optimization (Step 6-7)")]),
     ("guidelines", .arr
        [.str "Use parameter usage map to understand how each parameter affects EA behavior",
         .str "Avoid name-only heuristics; analyze actual code usage",
         .str "wide_validation_params: Set to loose values that encourage trading",
         .str "optimization_ranges: For numeric inputs, provide start/step/stop; for others, fix at default",
         .str "Do not optimize safety parameters (EAStressSafety_*)",
         .str "Mark sinput parameters as optimize=false",
         .str "Provide evidence-based rationale for optimization decisions"])]

/-- The request payload written by `write_analysis_request`. -/
def buildStep4Request (workflow_id : String) (parameters : List Json)
    (usage_map : List (String × Json)) (ea_source : String) : Json :=
  Json.obj
    [("workflow_id", .str workflow_id),
     ("parameters", .arr parameters),
     ("usage_map", .obj usage_map),
     ("ea_source", .str ea_source),
     ("instructions", step4Instructions)]

/-- `<output_dir>/<workflow_id>/llm`. -/
def step4LlmDir (output_dir workflow_id : String) : String :=
  output_dir ++ "/" ++ workflow_id ++ "/llm"

/-- Path of `step4_request.json`. -/
def step4RequestPath (output_dir workflow_id : String) : FPath :=
  ⟨step4LlmDir output_dir workflow_id, "step4_request.json"⟩

/-- Path of `step4_response.json`. -/
def step4ResponsePath (output_dir workflow_id : String) : FPath :=
  ⟨step4LlmDir output_dir workflow_id, "step4_response.json"⟩

/-- `write_analysis_request`: unconditionally writes the request file and
returns its path. -/
def write_analysis_request (workflow_id : String) (parameters : List Json)
    (usage_map : List (String × Json)) (ea_source : String)
    (output_dir : String) : String × List (FPath × FileContent) :=
  ((step4RequestPath output_dir workflow_id).render,
   [(step4RequestPath output_dir workflow_id,
     FileContent.jsonFile (buildStep4Request workflow_id parameters usage_map ea_source))])

/-- `read_analysis_response`: `none` when the file does not exist; raises
(`Except.error`) when the file is present but unparseable. -/
def read_analysis_response (fs : FS) (workflow_id output_dir : String) :
    Except String (Option Json) :=
  match alistGet (step4ResponsePath output_dir workflow_id) fs with
  | none => .ok none
  | some (FileContent.jsonFile j) => .ok (some j)
  | some _ => .error "Failed to parse response file"

/-- `analyze_parameters` (step 4): writes the request file *unconditionally*
(`write_analysis_request` has no existence check), then polls for the
response; missing response → `request_written`; unparseable response →
the raised `ValueError` is caught and becomes an `error` result (the request
write has already happened); present response → schema-validated. -/
def analyze_parameters (fs : FS) (workflow_id : String) (parameters : List Json)
    (usage_map : List (String × Json)) (ea_source : String)
    (output_dir : String) : AnalysisResult × List (FPath × FileContent) :=
  let reqPath := step4RequestPath output_dir workflow_id
  let respPath := step4ResponsePath output_dir workflow_id
  let writes :=
    [(reqPath, FileContent.jsonFile (buildStep4Request workflow_id parameters usage_map ea_source))]
  match alistGet respPath fs with
  | none =>
      ({ wide_validation_params := .obj [], optimization_ranges := .arr [],
         request_path := reqPath.render, response_path := respPath.render,
         status := "request_written" }, writes)
  | some (FileContent.jsonFile resp) =>
      let errs := validateResponseSchemaStep4 resp
      if !errs.isEmpty then
        ({ wide_validation_params := .obj [], optimization_ranges := .arr [],
           request_path := reqPath.render, response_path := respPath.render,
           status := "error", validation_errors := errs }, writes)
      else
        ({ wide_validation_params := resp.get "wide_validation_params",
           optimization_ranges := resp.get "optimization_ranges",
           request_path := reqPath.render, response_path := respPath.render,
           status := "validated" }, writes)
  | some _ =>
      ({ wide_validation_params := .obj [], optimization_ranges := .arr [],
         request_path := "", response_path := "",
         status := "error",
         validation_errors := ["Failed to parse response file"] }, writes)

/-! ## `step08c_llm_proposal.py` -/

/-- `ParamAction` dataclass (field types are whatever the validated JSON
carried; the validator does not constrain `name`/`action`/`rationale`). -/
structure ParamAction where
  name : Json
  action : Json
  rationale : Json
  evidence : List Json

/-- `RangeRefinement` dataclass. -/
structure RangeRefinement where
  name : Json
  start : Json
  step : Json
  stop : Json
  reason : Json

/-- `EAPatch` dataclass. -/
structure EAPatch where
  description : Json
  diff : Json

/-- `LLMProposalResult` dataclass. -/
structure LLMProposalResult where
  success : Bool
  status : String
  request_path : Option String := none
  response_path : Option String := none
  param_actions : List ParamAction := []
  range_refinements : List RangeRefinement := []
  ea_patch : Option EAPatch := none
  expected_impact : List Json := []
  risks : List Json := []
  review_required : Bool := true
  error_message : Option String := none

/-- `LLMProposalResult.passed_gate`. -/
def LLMProposalResult.passed_gate (r : LLMProposalResult) : Bool :=
  r.status = "validated" || r.status = "disabled"

/-- First violation of one `param_actions` item (`_validate_response_schema`
returns at the first violation found). -/
def checkParamAction (i : Nat) (action : Json) : Option String :=
  if !action.pyIsDict then
    some ("param_actions[" ++ toString i ++ "] must be an object")
  else if !action.hasKey "name" then
    some ("param_actions[" ++ toString i ++ "] missing required field: name")
  else if !action.hasKey "action" then
    some ("param_actions[" ++ toString i ++ "] missing required field: action")
  else if !action.hasKey "rationale" then
    some ("param_actions[" ++ toString i ++ "] missing required field: rationale")
  else if !action.hasKey "evidence" then
    some ("param_actions[" ++ toString i ++ "] missing required field: evidence")
  else if !(action.get "evidence").pyIsList then
    some ("param_actions[" ++ toString i ++ "].evidence must be a list")
  else none

/-- First violation of one `range_refinements` item. -/
def checkRangeRefinementItem (i : Nat) (ref : Json) : Option String :=
  if !ref.pyIsDict then
    some ("range_refinements[" ++ toString i ++ "] must be an object")
  else if !ref.hasKey "name" then
    some ("range_refinements[" ++ toString i ++ "] missing required field: name")
  else if !ref.hasKey "start" then
    some ("range_refinements[" ++ toString i ++ "] missing required field: start")
  else if !ref.hasKey "step" then
    some ("range_refinements[" ++ toString i ++ "] missing required field: step")
  else if !ref.hasKey "stop" then
    some ("range_refinements[" ++ toString i ++ "] missing required field: stop")
  else if !(ref.get "start").pyIsNumber then
    some ("range_refinements[" ++ toString i ++ "].start must be a number")
  else if !(ref.get "step").pyIsNumber then
    some ("range_refinements[" ++ toString i ++ "].step must be a number")
  else if !(ref.get "stop").pyIsNumber then
    some ("range_refinements[" ++ toString i ++ "].stop must be a number")
  else none

/-- First violation over a list of items, with running index. -/
def firstItemError (check : Nat → Json → Option String) :
    Nat → List Json → Option String
  | _, [] => none
  | i, x :: rest =>
    match check i x with
    | some e => some e
    | none => firstItemError check (i + 1) rest

/-- The `ea_patch` clause of `_validate_response_schema`. -/
def checkEaPatch (response : Json) : Option String :=
  if response.hasKey "ea_patch" && !(response.get "ea_patch").isNull then
    let patch := response.get "ea_patch"
    if !patch.pyIsDict then some "ea_patch must be an object or null"
    else if !patch.hasKey "description" || !patch.hasKey "diff" then
      some "ea_patch requires \x27description\x27 and \x27diff\x27 fields"
    else none
  else none

/-- `_validate_response_schema` (step 8C): stops at the *first* violation and
returns a single `(is_valid, error_message)` pair. -/
def validateResponseSchema8C (response : Json) : Bool × String :=
  if !response.hasKey "param_actions" then
    (false, "Missing required field: param_actions")
  else if !response.hasKey "range_refinements" then
    (false, "Missing required field: range_refinements")
  else if !response.hasKey "expected_impact" then
    (false, "Missing required field: expected_impact")
  else if !response.hasKey "risks" then
    (false, "Missing required field: risks")
  else if !response.hasKey "review_required" then
    (false, "Missing required field: review_required")
  else
    match response.get "param_actions" with
    | Json.arr actions =>
      (match firstItemError checkParamAction 0 actions with
       | some e => (false, e)
       | none =>
         match response.get "range_refinements" with
         | Json.arr refs =>
           (match firstItemError checkRangeRefinementItem 0 refs with
            | some e => (false, e)
            | none =>
              match checkEaPatch response with
              | some e => (false, e)
              | none =>
                if !(response.get "expected_impact").pyIsList then
                  (false, "expected_impact must be a list")
                else if !(response.get "risks").pyIsList then
                  (false, "risks must be a list")
                else if !(response.get "review_required").pyIsBool then
                  (false, "review_required must be a boolean")
                else (true, ""))
         | _ => (false, "range_refinements must be a list"))
    | _ => (false, "param_actions must be a list")

/-- The constant `instructions` block of `write_proposal_request`
(configuration values interpolated as in `config.py`). -/
def step8cInstructions : Json :=
  Json.obj
    [("rules", .arr
        [.str "Every recommendation MUST cite evidence from stat_explorer or pass1_results",
         .str "If evidence is weak, return empty lists for that area",
         .str "New logic is allowed but MUST be tied to observed patterns (e.g., session bias)",
         .str "Session-based sizing changes require profit concentration >= 60.0%",
         .str "Patches MUST NOT modify injected OnTester or safety guard code",
         .str "Look for EA_STRESS_ONTESTER_INJECTED and EA_STRESS_SAFETY_INJECTED markers"]),
     ("allow_new_logic", .bool LLM_ALLOW_NEW_LOGIC)]

/-- The constant `output_schema` block of `write_proposal_request`. -/
def step8cOutputSchema : Json :=
  Json.obj
    [("type", .str "object"),
     ("required", .arr
        [.str "param_actions", .str "range_refinements", .str "expected_impact",
         .str "risks", .str "review_required"]),
     ("properties", .obj
        [("param_actions", .obj
            [("type", .str "array"),
             ("items", .obj
                [("type", .str "object"),
                 ("required", .arr
                    [.str "name", .str "action", .str "rationale", .str "evidence"]),
                 ("properties", .obj
                    [("name", .obj [("type", .str "string")]),
                     ("action", .obj
                        [("type", .str "string"),
                         ("enum", .arr [.str "narrow_range", .str "fix", .str "remove"])]),
                     ("rationale", .obj [("type", .str "string")]),
                     ("evidence", .obj
                        [("type", .str "array"),
                         ("items", .obj [("type", .str "string")])])])])]),
         ("range_refinements", .obj
            [("type", .str "array"),
             ("items", .obj
                [("type", .str "object"),
                 ("required", .arr [.str "name", .str "start", .str "step", .str "stop"]),
                 ("properties", .obj
                    [("name", .obj [("type", .str "string")]),
                     ("start", .obj [("type", .str "number")]),
                     ("step", .obj [("type", .str "number")]),
                     ("stop", .obj [("type", .str "number")]),
                     ("reason", .obj [("type", .str "string")])])])]),
         ("ea_patch", .obj
            [("type", .arr [.str "object", .str "null"]),
             ("properties", .obj
                [("description", .obj [("type", .str "string")]),
                 ("diff", .obj [("type", .str "string")])])]),
         ("expected_impact", .obj
            [("type", .str "array"), ("items", .obj [("type", .str "string")])]),
         ("risks", .obj
            [("type", .str "array"), ("items", .obj [("type", .str "string")])]),
         ("review_required", .obj [("type", .str "boolean")])])]

/-- The request payload written by `write_proposal_request`. -/
def buildStep8cRequest (stat_explorer_data : Json) (pass1_results : List Json)
    (parameter_usage_map : List (String × Json)) (ea_source_code : String) : Json :=
  Json.obj
    [("step", .str "8C"),
     ("purpose", .str "Generate improvement proposals based on evidence from optimization results"),
     ("inputs", .obj
        [("stat_explorer", stat_explorer_data),
         ("pass1_results_summary", .obj
            [("total_passes", .num pass1_results.length),
             ("top_10_passes",
              .arr (if !pass1_results.isEmpty then pass1_results.take 10 else []))]),
         ("parameter_usage_map", .obj parameter_usage_map),
         ("ea_source_code", .str ea_source_code)]),
     ("instructions", step8cInstructions),
     ("output_schema", step8cOutputSchema)]

/-- Path of `step8c_request.json`. -/
def step8cRequestPath (workflow_id : String) : FPath :=
  ⟨RUNS_DIR ++ "/analysis/" ++ workflow_id ++ "/llm", "step8c_request.json"⟩

/-- Path of `step8c_response.json`. -/
def step8cResponsePath (workflow_id : String) : FPath :=
  ⟨RUNS_DIR ++ "/analysis/" ++ workflow_id ++ "/llm", "step8c_response.json"⟩

/-- Parse `param_actions` after successful validation. -/
def parseParamActions (actions : List Json) : List ParamAction :=
  actions.map (fun a =>
    { name := a.get "name", action := a.get "action",
      rationale := a.get "rationale", evidence := (a.get "evidence").asArr })

/-- Parse `range_refinements` after successful validation
(`reason` defaults to the empty string via `.get`). -/
def parseRangeRefinements (refs : List Json) : List RangeRefinement :=
  refs.map (fun r =>
    { name := r.get "name", start := r.get "start", step := r.get "step",
      stop := r.get "stop", reason := (r.lookup "reason").getD (Json.str "") })

/-- Parse `ea_patch` (`if response.get("ea_patch"):` — Python truthiness). -/
def parseEaPatch (response : Json) : Option EAPatch :=
  let p := (response.lookup "ea_patch").getD Json.null
  if p.pyTruthy then
    some { description := p.get "description", diff := p.get "diff" }
  else none

/-- `generate_llm_proposal` (step 8C): writes the request only when it does
not already exist; a missing or unparseable response yields
`request_written` with *no* writes; a present response is validated
(stopping at the first violation) and parsed. -/
def generate_llm_proposal (fs : FS) (stat_explorer_data : Json)
    (pass1_results : List Json) (parameter_usage_map : List (String × Json))
    (ea_source_code : String) (workflow_id : String) :
    LLMProposalResult × List (FPath × FileContent) :=
  if !LLM_IMPROVEMENT_ENABLED then
    ({ success := true, status := "disabled",
       error_message := some "LLM improvement is disabled in configuration" }, [])
  else
    let reqPath := step8cRequestPath workflow_id
    let respPath := step8cResponsePath workflow_id
    if (alistGet reqPath fs).isNone then
      ({ success := true, status := "request_written",
         request_path := some reqPath.render,
         error_message := some "Waiting for external LLM to provide step8c_response.json" },
       [(reqPath,
         FileContent.jsonFile
           (buildStep8cRequest stat_explorer_data pass1_results parameter_usage_map
             ea_source_code))])
    else
      match alistGet respPath fs with
      | some (FileContent.jsonFile resp) =>
          let v := validateResponseSchema8C resp
          if !v.1 then
            ({ success := false, status := "error",
               request_path := some reqPath.render, response_path := some respPath.render,
               error_message := some ("Invalid response schema: " ++ v.2) }, [])
          else
            ({ success := true, status := "validated",
               request_path := some reqPath.render, response_path := some respPath.render,
               param_actions := parseParamActions (resp.get "param_actions").asArr,
               range_refinements := parseRangeRefinements (resp.get "range_refinements").asArr,
               ea_patch := parseEaPatch resp,
               expected_impact := (resp.get "expected_impact").asArr,
               risks := (resp.get "risks").asArr,
               review_required := (resp.get "review_required").asBool }, [])
      | _ =>
          ({ success := true, status := "request_written",
             request_path := some reqPath.render,
             error_message := some "Waiting for external LLM to provide step8c_response.json" },
           [])

/-! ## String scanning helpers (Python `in`, `str.replace`, `str()`) -/

/-- Substring occurrence on character lists (`pat in s`). -/
def listContainsSub : List Char → List Char → Bool
  | _, [] => true
  | [], _ :: _ => false
  | c :: rest, p :: ps =>
    List.isPrefixOf (p :: ps) (c :: rest) || listContainsSub rest (p :: ps)

/-- Python `pat in s` on strings. -/
def strContains (s pat : String) : Bool :=
  listContainsSub s.data pat.data

/-- `str.replace` on character lists: replaces all non-overlapping
occurrences left to right. -/
def replaceAllChars : List Char → List Char → List Char → List Char
  | [], _, _ => []
  | c :: rest, pat, rep =>
    if pat ≠ [] ∧ List.isPrefixOf pat (c :: rest) then
      rep ++ replaceAllChars (List.drop (pat.length - 1) rest) pat rep
    else
      c :: replaceAllChars rest pat rep
termination_by s _ _ => s.length
decreasing_by
  · simp only [List.length_cons]
    have := List.length_drop (pat.length - 1) rest
    omega
  · simp [List.length_cons]

/-- Python `s.replace(pat, rep)`. -/
def strReplace (s pat rep : String) : String :=
  ⟨replaceAllChars s.data pat.data rep.data⟩

/-- Python `str()` of a parsed JSON value (scalar cases are exact; no claim
exercises the rendering of composite values, abridged here). -/
def pyStr : Json → String
  | .str s => s
  | .bool true => "True"
  | .bool false => "False"
  | .num n => toString n
  | .null => "None"
  | .arr _ => "[...]"
  | .obj _ => "\x7b...\x7d"

/-! ## `step08d_review.py` -/

/-- `ReviewDecision` dataclass: `approved` holds the raw
`data.get("approved", False)` value (no boolean coercion). -/
structure ReviewDecision where
  approved : Json
  feedback : Option Json := none
  reviewer_notes : Option Json := none
  timestamp : Option String := none

/-- `ReviewResult` dataclass. -/
structure ReviewResult where
  success : Bool
  status : String
  review_required : Bool
  baseline_ea_path : Option String := none
  active_ea_path : Option String := none
  patch_applied : Bool := false
  patched_ea_path : Option String := none
  decision : Option ReviewDecision := none
  review_package_path : Option String := none
  error_message : Option String := none
  refinement_cycle : Nat := 0

/-- `ReviewResult.passed_gate`. -/
def ReviewResult.passed_gate (r : ReviewResult) : Bool :=
  r.status = "approved" || r.status = "rejected" || r.status = "skipped"

/-- `<RUNS_DIR>/analysis/<workflow_id>/patches`. -/
def reviewPatchesDir (workflow_id : String) : String :=
  RUNS_DIR ++ "/analysis/" ++ workflow_id ++ "/patches"

/-- Path of `step8d_decision.json`. -/
def decisionPath (workflow_id : String) : FPath :=
  ⟨reviewPatchesDir workflow_id, "step8d_decision.json"⟩

/-- Path of `review_package.json`. -/
def reviewPackagePath (workflow_id : String) : FPath :=
  ⟨reviewPatchesDir workflow_id, "review_package.json"⟩

/-- The review-package payload of `_create_review_package`. -/
def buildReviewPackage (proposal : LLMProposalResult) (baseline_ea : String)
    (workflow_id now : String) : Json :=
  Json.obj
    [("workflow_id", .str workflow_id),
     ("created_at", .str now),
     ("baseline_ea", .str baseline_ea),
     ("proposal", .obj
        [("param_actions", .arr (proposal.param_actions.map (fun a =>
            Json.obj [("name", a.name), ("action", a.action),
                      ("rationale", a.rationale), ("evidence", .arr a.evidence)]))),
         ("range_refinements", .arr (proposal.range_refinements.map (fun r =>
            Json.obj [("name", r.name), ("start", r.start), ("step", r.step),
                      ("stop", r.stop), ("reason", r.reason)]))),
         ("ea_patch",
          match proposal.ea_patch with
          | some p => Json.obj [("description", p.description), ("diff", p.diff)]
          | none => Json.null),
         ("expected_impact", .arr proposal.expected_impact),
         ("risks", .arr proposal.risks)]),
     ("instructions", .obj
        [("to_approve",
          .str "Create step8d_decision.json with: \x7b\"approved\": true\x7d"),
         ("to_reject",
          .str "Create step8d_decision.json with: \x7b\"approved\": false\x7d"),
         ("to_request_changes",
          .str "Create step8d_decision.json with: \x7b\"approved\": false, \"feedback\": \"your feedback\"\x7d")])]

/-- `_read_review_decision`: `none` when the decision file is absent or
unparseable (the `JSONDecodeError` is swallowed); a decision whose JSON is
not an object raises `AttributeError` out of the helper (`Except.error`);
otherwise builds a `ReviewDecision` with `approved` defaulting to `False`. -/
def read_review_decision (fs : FS) (workflow_id now : String) :
    Except String (Option ReviewDecision) :=
  match alistGet (decisionPath workflow_id) fs with
  | none => .ok none
  | some (FileContent.jsonFile (Json.obj fields)) =>
      .ok (some
        { approved := (alistGet "approved" fields).getD (Json.bool false)
          feedback := alistGet "feedback" fields
          reviewer_notes := alistGet "notes" fields
          timestamp := some now })
  | some (FileContent.jsonFile _) => .error "AttributeError"
  | some _ => .ok none

/-- `_apply_patch`: reads the baseline, produces
`<patches>/<stem>_v<version>.mq5`; structured (unified-diff style) patches
degrade to a byte-for-byte copy of the baseline; otherwise the diff text is
spliced at `// INSERT_PATCH_HERE` or appended; also writes the
`.patch` sidecar; any exception (missing baseline, non-string diff) yields
`none`. -/
def apply_patch (fs : FS) (baselineDir baselineStem baselineSuffix : String)
    (patch : EAPatch) (workflow_id : String) (version : Nat := 2) :
    Option (FPath × List (FPath × FileContent)) :=
  match alistGet (FPath.mk baselineDir (baselineStem ++ baselineSuffix)) fs with
  | some (FileContent.textFile baseline_code) =>
    match patch.diff with
    | Json.str d =>
      let patched_path : FPath :=
        ⟨reviewPatchesDir workflow_id,
         baselineStem ++ "_v" ++ toString version ++ ".mq5"⟩
      let patched_code :=
        if d.startsWith "---" || d.startsWith "@@" then baseline_code
        else if strContains baseline_code "// INSERT_PATCH_HERE" then
          strReplace baseline_code "// INSERT_PATCH_HERE" d
        else baseline_code ++ "\n\n// --- LLM PATCH ---\n" ++ d
      let diff_path : FPath :=
        ⟨reviewPatchesDir workflow_id,
         baselineStem ++ "_v" ++ toString version ++ ".patch"⟩
      some (patched_path,
        [(patched_path, FileContent.textFile patched_code),
         (diff_path,
          FileContent.textFile
            ("Description: " ++ pyStr patch.description ++ "\n\n" ++ d))])
    | _ => none
  | _ => none

/-- `review_proposal` (step 8D), with `LLM_REVIEW_REQUIRED` and
`LLM_MAX_REFINEMENT_CYCLES` from `config.py`.  Returns the result plus the
writes performed (review package, patched version, `.patch` sidecar). -/
def review_proposal (fs : FS) (proposal : LLMProposalResult)
    (baselineDir baselineStem baselineSuffix : String)
    (workflow_id now : String) (refinement_cycle : Nat := 0) :
    ReviewResult × List (FPath × FileContent) :=
  let baselinePath := (FPath.mk baselineDir (baselineStem ++ baselineSuffix)).render
  if !LLM_REVIEW_REQUIRED then
    match proposal.ea_patch with
    | some patch =>
      (match apply_patch fs baselineDir baselineStem baselineSuffix patch workflow_id with
       | some (patched_path, writes) =>
         ({ success := true, status := "approved", review_required := false,
            baseline_ea_path := some baselinePath,
            active_ea_path := some patched_path.render,
            patch_applied := true,
            patched_ea_path := some patched_path.render }, writes)
       | none =>
         ({ success := true, status := "approved", review_required := false,
            baseline_ea_path := some baselinePath,
            active_ea_path := some baselinePath,
            patch_applied := false }, []))
    | none =>
      ({ success := true, status := "skipped", review_required := false,
         baseline_ea_path := some baselinePath,
         active_ea_path := some baselinePath }, [])
  else if proposal.status = "disabled" ||
      (proposal.param_actions.isEmpty && proposal.range_refinements.isEmpty &&
        proposal.ea_patch.isNone) then
    ({ success := true, status := "skipped", review_required := false,
       baseline_ea_path := some baselinePath,
       active_ea_path := some baselinePath }, [])
  else
    let packageWrite :=
      (reviewPackagePath workflow_id,
       FileContent.jsonFile
         (buildReviewPackage proposal baselinePath workflow_id now))
    match read_review_decision fs workflow_id now with
    | .error e =>
      ({ success := false, status := "error",
         review_required := LLM_REVIEW_REQUIRED,
         baseline_ea_path := some baselinePath,
         active_ea_path := some baselinePath,
         error_message := some ("Review error: " ++ e) }, [packageWrite])
    | .ok none =>
      ({ success := true, status := "pending_review", review_required := true,
         baseline_ea_path := some baselinePath,
         active_ea_path := some baselinePath,
         review_package_path := some (reviewPackagePath workflow_id).render,
         refinement_cycle := refinement_cycle,
         error_message :=
           some "Waiting for human review. Check review_package.json and provide step8d_decision.json" },
       [packageWrite])
    | .ok (some decision) =>
      if decision.approved.pyTruthy then
        match proposal.ea_patch with
        | some patch =>
          (match apply_patch fs baselineDir baselineStem baselineSuffix patch
              workflow_id with
           | some (patched_path, patchWrites) =>
             ({ success := true, status := "approved", review_required := true,
                baseline_ea_path := some baselinePath,
                active_ea_path := some patched_path.render,
                patch_applied := true,
                patched_ea_path := some patched_path.render,
                decision := some decision,
                review_package_path := some (reviewPackagePath workflow_id).render,
                refinement_cycle := refinement_cycle },
              packageWrite :: patchWrites)
           | none =>
             ({ success := true, status := "approved", review_required := true,
                baseline_ea_path := some baselinePath,
                active_ea_path := some baselinePath,
                patch_applied := false,
                decision := some decision,
                review_package_path := some (reviewPackagePath workflow_id).render,
                refinement_cycle := refinement_cycle }, [packageWrite]))
        | none =>
          ({ success := true, status := "approved", review_required := true,
             baseline_ea_path := some baselinePath,
             active_ea_path := some baselinePath,
             patch_applied := false,
             decision := some decision,
             review_package_path := some (reviewPackagePath workflow_id).render,
             refinement_cycle := refinement_cycle }, [packageWrite])
      else
        if (match decision.feedback with
            | some f => f.pyTruthy
            | none => false) &&
            decide (refinement_cycle < LLM_MAX_REFINEMENT_CYCLES) then
          ({ success := true, status := "rejected", review_required := true,
             baseline_ea_path := some baselinePath,
             active_ea_path := some baselinePath,
             patch_applied := false,
             decision := some decision,
             review_package_path := some (reviewPackagePath workflow_id).render,
             refinement_cycle := refinement_cycle,
             error_message :=
               some ("Rejected with feedback: " ++
                 pyStr ((decision.feedback).getD Json.null)) }, [packageWrite])
        else
          ({ success := true, status := "rejected", review_required := true,
             baseline_ea_path := some baselinePath,
             active_ea_path := some baselinePath,
             patch_applied := false,
             decision := some decision,
             review_package_path := some (reviewPackagePath workflow_id).render,
             refinement_cycle := refinement_cycle }, [packageWrite])

/-! ## More string helpers (Python `split`, `strip`, `startswith`) -/

/-- Python whitespace class (`\s`, `str.strip` default). -/
def isPySpace (c : Char) : Bool :=
  c = ' ' || c = '\t' || c = '\n' || c = '\r' || c = '\x0c' || c = '\x0b'

/-- `str.split('\n')` worker (accumulator holds the current line reversed). -/
def splitLinesAux : List Char → List Char → List (List Char)
  | [], acc => [acc.reverse]
  | c :: rest, acc =>
    if c = '\n' then acc.reverse :: splitLinesAux rest []
    else splitLinesAux rest (c :: acc)

/-- Python `s.split('\n')`. -/
def strLines (s : String) : List String :=
  (splitLinesAux s.data []).map (fun l => ⟨l⟩)

/-- `'\n'.join(lines)` / the inverse of `split('\n')`. -/
def joinLines : List String → String
  | [] => ""
  | [l] => l
  | l :: rest => l ++ "\n" ++ joinLines rest

/-- Python `s.strip()`. -/
def strStrip (s : String) : String :=
  ⟨((s.data.dropWhile isPySpace).reverse.dropWhile isPySpace).reverse⟩

/-- Python `s.startswith(p)`. -/
def strStartsWith (s p : String) : Bool :=
  List.isPrefixOf p.data s.data

/-- `os.path.splitext(name)[0]` (text before the last dot). -/
def fileStem (name : String) : String :=
  match name.data.reverse.dropWhile (fun c => !(c = '.')) with
  | '.' :: restRev => ⟨restRev.reverse⟩
  | _ => name

/-- `os.path.splitext(name)[1]` (the last dot and what follows, or `""`). -/
def fileExt (name : String) : String :=
  match (name.data.reverse.takeWhile (fun c => !(c = '.'))).reverse with
  | ext => if strContains name "." then ⟨'.' :: ext⟩ else ""

/-- `list.insert(idx, x)` (appends when the index is past the end). -/
def insertAt : Nat → String → List String → List String
  | 0, x, l => x :: l
  | _ + 1, x, [] => [x]
  | n + 1, x, y :: rest => y :: insertAt n x rest

/-! ## `step01b_ontester.py` -/

/-- `OnTesterResult` dataclass. -/
structure OnTesterResult where
  status : String
  modified_ea_path : Option String := none
  original_ea_path : Option String := none
  error_message : Option String := none
  has_existing_ontester : Bool := false
  existing_ontester_is_ours : Bool := false

/-- `OnTesterResult.passed_gate`. -/
def OnTesterResult.passed_gate (r : OnTesterResult) : Bool :=
  r.status = "injected" || r.status = "already_present"

/-- `re.search` with the MULTILINE pattern `^\s*double\s+OnTester\s*\(\s*\)` on a
single (newline-free) line: the anchored pattern matched deterministically
(each `\s` run is followed by a non-space literal, so greedy matching never
backtracks). -/
def matchOnTesterDecl (line : String) : Bool :=
  let s1 := line.data.dropWhile isPySpace
  if List.isPrefixOf "double".data s1 then
    match s1.drop 6 with
    | c :: _ =>
      if isPySpace c then
        let s3 := (s1.drop 6).dropWhile isPySpace
        if List.isPrefixOf "OnTester".data s3 then
          match (s3.drop 8).dropWhile isPySpace with
          | '(' :: s5 =>
            match s5.dropWhile isPySpace with
            | ')' :: _ => true
            | _ => false
          | _ => false
        else false
      else false
    | [] => false
  else false

/-- The comment-aware scan of `inject_ontester`: a line counts only when its
stripped form does not start with `//` (block comments are *not* handled). -/
def detectOnTester (source : String) : Bool :=
  (strLines source).any (fun line =>
    !(strStartsWith (strStrip line) "//") && matchOnTesterDecl line)

/-- The lines of the OnTester code generated by `_generate_ontester_code`
(the f-string, line for line; `{min_trades}` interpolated). -/
def genOntesterLines (min_trades : Nat) : List String :=
    ["",
     "//+------------------------------------------------------------------+",
     "//| EA_STRESS_ONTESTER_INJECTED",
     "//| Custom optimization criterion with R^2 calculation",
     "//|",
     "//| Formula: Score = Profit * R^2 * sqrt(trades/100) * DD_factor * PF_bonus",
     "//| Where:",
     "//|   - Profit: TesterStatistics(STAT_PROFIT)",
     "//|   - R^2: Equity curve linearity (0-1) via linear regression",
     "//|   - DD_factor: 1 / (1 + maxDD / 50)",
     "//|   - PF_bonus: If PF > 1.5, multiply by (1 + (PF - 1.5) * 0.03)",
     "//|",
     "//| Hardcoded thresholds:",
     "//|   - trades < " ++ toString min_trades ++ " -> return -1000",
     "//|   - profit <= 0 -> return -500",
     "//|   - < 10 deals in history -> fallback formula without R^2",
     "//+------------------------------------------------------------------+",
     "double OnTester()",
     "\x7b",
     "    // Get basic statistics",
     "    double profit = TesterStatistics(STAT_PROFIT);",
     "    double profit_factor = TesterStatistics(STAT_PROFIT_FACTOR);",
     "    double max_dd = TesterStatistics(STAT_EQUITY_DDREL_PERCENT);",
     "    int total_trades = (int)TesterStatistics(STAT_TRADES);",
     "",
     "    // Gate 1: Minimum trades",
     "    if(total_trades < " ++ toString min_trades ++ ")",
     "        return -1000.0;",
     "",
     "    // Gate 2: Profit must be positive",
     "    if(profit <= 0.0)",
     "        return -500.0;",
     "",
     "    // Calculate R^2 from equity curve",
     "    double r_squared = 0.0;",
     "    if(HistoryDealsTotal() >= 10)",
     "    \x7b",
     "        r_squared = CalculateRSquared();",
     "    \x7d",
     "    else",
     "    \x7b",
     "        // Fallback: use profit factor as proxy for consistency",
     "        r_squared = MathMin(profit_factor / 3.0, 1.0);",
     "    \x7d",
     "",
     "    // Clamp R^2 to [0, 1]",
     "    r_squared = MathMax(0.0, MathMin(1.0, r_squared));",
     "",
     "    // Calculate DD factor: 1 / (1 + maxDD / 50)",
     "    double dd_factor = 1.0 / (1.0 + max_dd / 50.0);",
     "",
     "    // Calculate PF bonus: if PF > 1.5, multiply by (1 + (PF - 1.5) * 0.03)",
     "    double pf_bonus = 1.0;",
     "    if(profit_factor > 1.5)",
     "        pf_bonus = 1.0 + (profit_factor - 1.5) * 0.03;",
     "",
     "    // Calculate trade count scaling: sqrt(trades/100)",
     "    double trade_scale = MathSqrt(total_trades / 100.0);",
     "",
     "    // Final score",
     "    double score = profit * r_squared * trade_scale * dd_factor * pf_bonus;",
     "",
     "    return score;",
     "\x7d",
     "",
     "//+------------------------------------------------------------------+",
     "//| Calculate R^2 from equity curve using linear regression",
     "//+------------------------------------------------------------------+",
     "double CalculateRSquared()",
     "\x7b",
     "    int deals_total = HistoryDealsTotal();",
     "    if(deals_total < 2)",
     "        return 0.0;",
     "",
     "    // Build equity curve from deal history",
     "    double equity_curve[];",
     "    ArrayResize(equity_curve, deals_total);",
     "",
     "    double cumulative_profit = 0.0;",
     "    for(int i = 0; i < deals_total; i++)",
     "    \x7b",
     "        ulong ticket = HistoryDealGetTicket(i);",
     "        if(ticket > 0)",
     "        \x7b",
     "            double deal_profit = HistoryDealGetDouble(ticket, DEAL_PROFIT);",
     "            double deal_commission = HistoryDealGetDouble(ticket, DEAL_COMMISSION);",
     "            double deal_swap = HistoryDealGetDouble(ticket, DEAL_SWAP);",
     "",
     "            cumulative_profit += deal_profit + deal_commission + deal_swap;",
     "            equity_curve[i] = cumulative_profit;",
     "        \x7d",
     "    \x7d",
     "",
     "    // Linear regression: y = mx + b",
     "    int n = deals_total;",
     "    double sum_x = 0.0, sum_y = 0.0, sum_xy = 0.0, sum_x2 = 0.0;",
     "",
     "    for(int i = 0; i < n; i++)",
     "    \x7b",
     "        double x = (double)i;",
     "        double y = equity_curve[i];",
     "",
     "        sum_x += x;",
     "        sum_y += y;",
     "        sum_xy += x * y;",
     "        sum_x2 += x * x;",
     "    \x7d",
     "",
     "    // Calculate slope (m) and intercept (b)",
     "    double denom = n * sum_x2 - sum_x * sum_x;",
     "    if(MathAbs(denom) < 0.000001)",
     "        return 0.0;",
     "",
     "    double m = (n * sum_xy - sum_x * sum_y) / denom;",
     "    double b = (sum_y - m * sum_x) / n;",
     "",
     "    // Calculate R^2 = 1 - (SS_residual / SS_total)",
     "    double mean_y = sum_y / n;",
     "    double ss_total = 0.0;",
     "    double ss_residual = 0.0;",
     "",
     "    for(int i = 0; i < n; i++)",
     "    \x7b",
     "        double y = equity_curve[i];",
     "        double y_pred = m * i + b;",
     "",
     "        ss_total += (y - mean_y) * (y - mean_y);",
     "        ss_residual += (y - y_pred) * (y - y_pred);",
     "    \x7d",
     "",
     "    if(ss_total < 0.000001)",
     "        return 0.0;",
     "",
     "    double r_squared = 1.0 - (ss_residual / ss_total);",
     "",
     "    // Clamp to [0, 1]",
     "    return MathMax(0.0, MathMin(1.0, r_squared));",
     "\x7d",
     ""]

/-- The OnTester code generated by `_generate_ontester_code`. -/
def genOntesterCode (min_trades : Nat) : String :=
  joinLines (genOntesterLines min_trades)

/-- `inject_ontester` (step 1B): marker check is the literal substring
`// EA_STRESS_ONTESTER_INJECTED`; the decision table is
(function ∧ marker) → `already_present`, (function ∧ ¬marker) → `conflict`,
otherwise inject into `<output_dir>/<stem>_ontester.mq5`. -/
def inject_ontester (fs : FS) (ea_path : FPath) (output_dir : String)
    (min_trades : Nat := 10) : OnTesterResult × List (FPath × FileContent) :=
  match alistGet ea_path fs with
  | some (FileContent.textFile source) =>
    let has_marker := strContains source "// EA_STRESS_ONTESTER_INJECTED"
    let has_ontester := detectOnTester source
    if has_ontester && has_marker then
      ({ status := "already_present", modified_ea_path := some ea_path.render,
         original_ea_path := some ea_path.render, has_existing_ontester := true,
         existing_ontester_is_ours := true }, [])
    else if has_ontester && !has_marker then
      ({ status := "conflict", original_ea_path := some ea_path.render,
         error_message :=
           some "EA already has OnTester() function not injected by this system",
         has_existing_ontester := true, existing_ontester_is_ours := false }, [])
    else
      let modified_path : FPath :=
        ⟨output_dir, fileStem ea_path.name ++ "_ontester.mq5"⟩
      let modified_source := source ++ "\n\n" ++ genOntesterCode min_trades
      ({ status := "injected", modified_ea_path := some modified_path.render,
         original_ea_path := some ea_path.render, has_existing_ontester := false,
         existing_ontester_is_ours := false },
       [(modified_path, FileContent.textFile modified_source)])
  | _ =>
      ({ status := "error", original_ea_path := some ea_path.render,
         error_message := some "No such file or directory" }, [])

/-- The lines of a clean EA source without OnTester (derived from the
repository's own test fixture). -/
def cleanEaLines : List String :=
    ["//+------------------------------------------------------------------+",
     "//| Test EA without OnTester",
     "//+------------------------------------------------------------------+",
     "#property copyright \"Test\"",
     "input int FastPeriod = 10;",
     "",
     "int OnInit()",
     "\x7b",
     "    return(INIT_SUCCEEDED);",
     "\x7d",
     "",
     "void OnTick()",
     "\x7b",
     "    // Trading logic here",
     "\x7d"]

/-- A clean EA source without OnTester. -/
def cleanEaSource : String :=
  joinLines cleanEaLines

/-- The EA source produced by the first OnTester injection run (the content
of `out/Clean_ontester.mq5`). -/
def ontesterRerunSource : String :=
  cleanEaSource ++ "\n\n" ++ genOntesterCode 10

/-- The same source as a list of newline-free lines. -/
def ontesterRerunLines : List String :=
  cleanEaLines ++ "" :: genOntesterLines 10

/-- Filesystem with the clean EA at `experts/Clean.mq5`. -/
def fsCleanEa : FS :=
  [(⟨"experts", "Clean.mq5"⟩, FileContent.textFile cleanEaSource)]

/-- Filesystem after the first OnTester injection run. -/
def fsAfterOnTesterInjection : FS :=
  applyWrites fsCleanEa
    (inject_ontester fsCleanEa ⟨"experts", "Clean.mq5"⟩ "out" 10).2

/-! ## `step01c_safety.py` -/

/-- `SafetyResult` dataclass. -/
structure SafetyResult where
  status : String
  output_path : Option FPath
  message : String

/-- `SafetyResult.passed_gate`. -/
def SafetyResult.passed_gate (r : SafetyResult) : Bool :=
  r.status = "injected" || r.status = "already_present" || r.status = "skipped"

/-- Index of the first occurrence of the two-character close token `*/`
(the target of the non-greedy `.*?` in `re.sub(r'/\*.*?\*/', ...)`). -/
def findStarSlash : List Char → Option Nat
  | [] => none
  | c :: rest =>
    match rest with
    | c2 :: rest2 =>
      if c = '*' ∧ c2 = '/' then some 0
      else (findStarSlash (c2 :: rest2)).map (fun n => n + 1)
    | [] => none

/-- `re.sub(r'/\*.*?\*/', '', content, flags=re.DOTALL)`: scan left to
right; at `/*`, drop through the first following `*/` and continue after
it; an unclosed `/*` matches nothing (and then no later `/*` can match
either, since any close after it would have closed the first one). -/
def removeBlockComments : List Char → List Char
  | [] => []
  | c :: rest =>
    match rest with
    | c2 :: rest2 =>
      if c = '/' ∧ c2 = '*' then
        match findStarSlash rest2 with
        | some k => removeBlockComments (rest2.drop (k + 2))
        | none => c :: c2 :: rest2
      else c :: removeBlockComments (c2 :: rest2)
    | [] => [c]
  termination_by cs => cs.length
  decreasing_by
    · simp [List.length_drop]
      omega
    · simp

/-- `re.sub(r'//[^\n]*', '', content)`: drop from each `//` to the end of
its line (the newline itself is kept). -/
def removeLineComments : List Char → List Char
  | [] => []
  | c :: rest =>
    match rest with
    | c2 :: rest2 =>
      if c = '/' ∧ c2 = '/' then
        removeLineComments (rest2.dropWhile (fun x => !(x = '\n')))
      else c :: removeLineComments (c2 :: rest2)
    | [] => [c]
  termination_by cs => cs.length
  decreasing_by
    · simp
      exact Nat.lt_of_le_of_lt (List.Sublist.length_le (List.dropWhile_sublist _))
        (by omega)
    · simp

/-- The two comment-removal substitutions of `inject_safety_guards`, in
source order: block comments first, then line comments. -/
def stripComments (s : String) : String :=
  ⟨removeLineComments (removeBlockComments s.data)⟩

/-- Python regex word characters (`\w` / `\b`), ASCII range (the sources
are ASCII). -/
def isWordChar (c : Char) : Bool :=
  ('a' ≤ c && c ≤ 'z') || ('A' ≤ c && c ≤ 'Z') || ('0' ≤ c && c ≤ '9') || c = '_'

/-- A `\b` word boundary holds before a word character when the preceding
character (if any) is not a word character. -/
def boundaryOk : Option Char → Bool
  | none => true
  | some p => !isWordChar p

/-- Case-insensitive prefix test (for the `re.IGNORECASE` patterns). -/
def ciPrefixOf : List Char → List Char → Bool
  | [], _ => true
  | _ :: _, [] => false
  | p :: ps, c :: cs => (p.toLower = c.toLower) && ciPrefixOf ps cs

/-- Require at least one whitespace character, then continue after the
maximal whitespace run (the deterministic reading of `\s+` when the next
pattern atom cannot match whitespace). -/
def requireWsThen (cont : List Char → Bool) : List Char → Bool
  | [] => false
  | c :: rest => isPySpace c && cont (rest.dropWhile isPySpace)

/-- Search a case-insensitive occurrence of `w` before the next newline
(the `.*WORD` tail of the safety parameter patterns: `.` does not cross
`\n` without DOTALL). -/
def scanWordInLine (w : List Char) : List Char → Bool
  | [] => false
  | c :: rest =>
    if c = '\n' then false
    else ciPrefixOf w (c :: rest) || scanWordInLine w rest

/-- One anchored attempt of `\binput\s+double\s+.*WORD` (IGNORECASE),
boundary already checked. -/
def searchInputAt (word : List Char) (cs : List Char) : Bool :=
  ciPrefixOf "input".data cs &&
    requireWsThen
      (fun s2 =>
        ciPrefixOf "double".data s2 &&
          requireWsThen (fun s3 => scanWordInLine word s3) (s2.drop 6))
      (cs.drop 5)

/-- `re.search(r'\binput\s+double\s+.*WORD', content, re.IGNORECASE)`:
try every position with a word boundary. -/
def searchInput (word : List Char) : Option Char → List Char → Bool
  | _, [] => false
  | prev, c :: rest =>
    (boundaryOk prev && searchInputAt word (c :: rest)) ||
      searchInput word (some c) rest

/-- Search an occurrence of `IsSpreadOk\s*\(` starting before the next
newline (the `\s*` after the name may itself cross newlines). -/
def scanIsSpreadOkInLine : List Char → Bool
  | [] => false
  | c :: rest =>
    if c = '\n' then false
    else
      (List.isPrefixOf "IsSpreadOk".data (c :: rest) &&
        (match ((c :: rest).drop 10).dropWhile isPySpace with
         | '(' :: _ => true
         | _ => false)) ||
      scanIsSpreadOkInLine rest

/-- `re.search(r'\b(bool|double)\s+.*IsSpreadOk\s*\(', content)`
(case-sensitive). -/
def searchIsSpreadOk : Option Char → List Char → Bool
  | _, [] => false
  | prev, c :: rest =>
    (boundaryOk prev &&
      ((List.isPrefixOf "bool".data (c :: rest) &&
          requireWsThen scanIsSpreadOkInLine ((c :: rest).drop 4)) ||
        (List.isPrefixOf "double".data (c :: rest) &&
          requireWsThen scanIsSpreadOkInLine ((c :: rest).drop 6)))) ||
      searchIsSpreadOk (some c) rest

/-- One anchored attempt of `#define\s+OrderSend\s+`. -/
def searchDefineOrderSendAt (cs : List Char) : Bool :=
  List.isPrefixOf "#define".data cs &&
    requireWsThen
      (fun s2 =>
        List.isPrefixOf "OrderSend".data s2 &&
          (match s2.drop 9 with
           | c :: _ => isPySpace c
           | [] => false))
      (cs.drop 7)

/-- `re.search(r'#define\s+OrderSend\s+', content)`. -/
def searchDefineOrderSend : List Char → Bool
  | [] => false
  | c :: rest => searchDefineOrderSendAt (c :: rest) || searchDefineOrderSend rest

/-- The conflict list of `inject_safety_guards`, computed on the
comment-stripped content, in source order. -/
def safetyConflicts (content_no_comments : String) : List String :=
  (if searchInput "maxspread".data none content_no_comments.data then
      ["Existing MaxSpread parameter detected"] else []) ++
  (if searchInput "maxslippage".data none content_no_comments.data then
      ["Existing MaxSlippage parameter detected"] else []) ++
  (if searchIsSpreadOk none content_no_comments.data then
      ["Existing IsSpreadOk function detected"] else []) ++
  (if searchDefineOrderSend content_no_comments.data then
      ["OrderSend macro already defined"] else [])

/-- `'; '.join` and friends. -/
def joinSep (sep : String) : List String → String
  | [] => ""
  | [x] => x
  | x :: rest => x ++ sep ++ joinSep sep rest

/-- The function-definition head pattern of the injection-point scan:
`re.match(r'^(int|void|double|bool|string|datetime)\s+\w+\s*\(', stripped)`. -/
def matchFuncDef (s : String) : Bool :=
  ["int", "void", "double", "bool", "string", "datetime"].any (fun kw =>
    List.isPrefixOf kw.data s.data &&
      (match s.data.drop kw.data.length with
       | c :: _ =>
         isPySpace c &&
           (match (s.data.drop kw.data.length).dropWhile isPySpace with
            | d :: _ =>
              isWordChar d &&
                (match ((s.data.drop kw.data.length).dropWhile isPySpace
                    |>.dropWhile isWordChar).dropWhile isPySpace with
                 | '(' :: _ => true
                 | _ => false)
            | [] => false)
       | [] => false))

/-- The event-handler head test on the text after `On`. -/
def matchOnHandlerCore (cs : List Char) : Bool :=
  List.isPrefixOf "On".data cs &&
    ["Init", "Tick", "Deinit", "Trade", "Timer", "ChartEvent"].any
      (fun nm => List.isPrefixOf nm.data (cs.drop 2))

/-- `re.match(r'^(int\s+)?On(Init|Tick|Deinit|Trade|Timer|ChartEvent)',
stripped)`. -/
def matchOnHandler (s : String) : Bool :=
  matchOnHandlerCore s.data ||
    (List.isPrefixOf "int".data s.data &&
      (match s.data.drop 3 with
       | c :: _ =>
         isPySpace c && matchOnHandlerCore ((s.data.drop 3).dropWhile isPySpace)
       | [] => false))

/-- The injection-point loop of `inject_safety_guards`: first line index
holding a function definition or event handler outside comments; `0` when
none is found (the Python loop leaves `injection_index = 0`, which the
caller then rewrites to `len(lines)` — even when the match was genuinely
at line 0). -/
def findInjectionIndexAux : Nat → Bool → List String → Nat
  | _, _, [] => 0
  | i, inBlock, line :: rest =>
    let stripped := strStrip line
    let b1 := if strContains stripped "/*" then true else inBlock
    if strContains stripped "*/" then findInjectionIndexAux (i + 1) false rest
    else if b1 then findInjectionIndexAux (i + 1) b1 rest
    else if strStartsWith stripped "//" then findInjectionIndexAux (i + 1) b1 rest
    else if matchFuncDef stripped then i
    else if matchOnHandler stripped then i
    else findInjectionIndexAux (i + 1) b1 rest

/-- The lines of the safety-guard injection f-string (the `injection`
literal of `inject_safety_guards`, line for line; the two `{...}`
interpolations are passed as rendered strings). -/
def safetyInjectionLines (spread slip : String) : List String :=
  ["",
   "//+------------------------------------------------------------------+",
   "//| EA Stress Test System - Safety Guards                            |",
   "//| Marker: EA_STRESS_SAFETY_INJECTED                                 |",
   "//+------------------------------------------------------------------+",
   "",
   "// Safety parameters",
   "input double EAStressSafety_MaxSpreadPips = " ++ spread ++ ";",
   "input double EAStressSafety_MaxSlippagePips = " ++ slip ++ ";",
   "",
   "// Calculate pip size based on broker digits",
   "double EAStressSafety_PipSize()",
   "\x7b",
   "   int digits = (int)SymbolInfoInteger(_Symbol, SYMBOL_DIGITS);",
   "   if(digits == 2 || digits == 3)",
   "      return 0.01;",
   "   else if(digits == 4 || digits == 5)",
   "      return 0.0001;",
   "   else",
   "      return 0.00001;",
   "\x7d",
   "",
   "// Check if current spread is acceptable",
   "bool EAStressSafety_IsSpreadOk()",
   "\x7b",
   "   if(EAStressSafety_MaxSpreadPips <= 0)",
   "      return true;  // No limit",
   "",
   "   double spread = SymbolInfoDouble(_Symbol, SYMBOL_ASK) - SymbolInfoDouble(_Symbol, SYMBOL_BID);",
   "   double spreadPips = spread / EAStressSafety_PipSize();",
   "",
   "   return spreadPips <= EAStressSafety_MaxSpreadPips;",
   "\x7d",
   "",
   "// Calculate max deviation in points for slippage control",
   "ulong EAStressSafety_MaxDeviationPoints()",
   "\x7b",
   "   if(EAStressSafety_MaxSlippagePips <= 0)",
   "      return 0;  // No limit",
   "",
   "   double pipSize = EAStressSafety_PipSize();",
   "   double point = SymbolInfoDouble(_Symbol, SYMBOL_POINT);",
   "",
   "   if(point <= 0)",
   "      return 0;",
   "",
   "   return (ulong)((EAStressSafety_MaxSlippagePips * pipSize) / point);",
   "\x7d",
   "",
   "// Safe OrderSend wrapper with spread and slippage checks",
   "bool EAStressSafety_OrderSend(MqlTradeRequest &request, MqlTradeResult &result)",
   "\x7b",
   "   // Check spread before trading",
   "   if(!EAStressSafety_IsSpreadOk())",
   "   \x7b",
   "      result.retcode = TRADE_RETCODE_INVALID_PRICE;",
   "      result.comment = \"Spread too wide\";",
   "      return false;",
   "   \x7d",
   "",
   "   // Set slippage limit",
   "   if(request.deviation == 0)",
   "      request.deviation = EAStressSafety_MaxDeviationPoints();",
   "",
   "   // Execute trade",
   "   return OrderSend(request, result);",
   "\x7d",
   "",
   "// Async version (rarely used, but include for completeness)",
   "bool EAStressSafety_OrderSendAsync(MqlTradeRequest &request, MqlTradeResult &result)",
   "\x7b",
   "   if(!EAStressSafety_IsSpreadOk())",
   "   \x7b",
   "      result.retcode = TRADE_RETCODE_INVALID_PRICE;",
   "      result.comment = \"Spread too wide\";",
   "      return false;",
   "   \x7d",
   "",
   "   if(request.deviation == 0)",
   "      request.deviation = EAStressSafety_MaxDeviationPoints();",
   "",
   "   return OrderSendAsync(request, result);",
   "\x7d",
   "",
   "// File operation blockers for stress test mode",
   "#define STRESS_TEST_MODE true",
   "#define FileOpen(a,b,c) INVALID_HANDLE",
   "#define FileWrite(a,b) 0",
   "#define FileDelete(a) false",
   "#define WebRequest(a,b,c,d,e,f,g) false",
   "",
   "//+------------------------------------------------------------------+",
   ""]

/-- The safety-guard injection text. -/
def safetyInjectionText (spread slip : String) : String :=
  joinLines (safetyInjectionLines spread slip)

/-- `inject_safety_guards` (step 1C): marker check, comment-stripped
conflict scan, then insertion of the guard block at the computed line
index of a new `<stem>_safety<ext>` file (or the given output path). -/
def inject_safety_guards (fs : FS) (ea_path : FPath)
    (output_path : Option FPath := none) (spread : String := "3.0")
    (slip : String := "3.0") : SafetyResult × List (FPath × FileContent) :=
  match alistGet ea_path fs with
  | some (FileContent.textFile content) =>
    if strContains content "EA_STRESS_SAFETY_INJECTED" then
      ({ status := "already_present", output_path := some ea_path,
         message := "Safety guards already injected by this system" }, [])
    else
      let content_no_comments := stripComments content
      let conflicts := safetyConflicts content_no_comments
      if conflicts.isEmpty then
        let out := output_path.getD
          ⟨ea_path.dir, fileStem ea_path.name ++ "_safety" ++ fileExt ea_path.name⟩
        let lines := strLines content
        let idx0 := findInjectionIndexAux 0 false lines
        let idx := if idx0 = 0 then lines.length else idx0
        let modified := joinLines (insertAt idx (safetyInjectionText spread slip) lines)
        ({ status := "injected", output_path := some out,
           message := "Safety guards injected successfully into " ++ out.render },
         [(out, FileContent.textFile modified)])
      else
        ({ status := "conflict", output_path := none,
           message := "Safety conflicts detected: " ++ joinSep "; " conflicts }, [])
  | _ =>
      ({ status := "error", output_path := none,
         message := "EA file not found: " ++ ea_path.render }, [])

/-! ## A segment model of commented source text

A source is decomposed into code, single-line-comment and block-comment
segments; the well-formedness conditions say the comment delimiters in the
rendering are exactly the segment boundaries. -/

/-- A segment of source text. -/
inductive SrcSeg where
  | code (s : String)
  | lineComment (s : String)
  | blockComment (s : String)

/-- The rendered characters of a segment. -/
def renderSegData : SrcSeg → List Char
  | SrcSeg.code s => s.data
  | SrcSeg.lineComment s => '/' :: '/' :: s.data
  | SrcSeg.blockComment s => '/' :: '*' :: (s.data ++ ['*', '/'])

/-- The rendered characters of a segment list. -/
def renderSegsData : List SrcSeg → List Char
  | [] => []
  | seg :: rest => renderSegData seg ++ renderSegsData rest

/-- The rendered source. -/
def renderSegs (segs : List SrcSeg) : String :=
  ⟨renderSegsData segs⟩

/-- The characters surviving the block-comment pass. -/
def renderNoBlocksData : List SrcSeg → List Char
  | [] => []
  | SrcSeg.blockComment _ :: rest => renderNoBlocksData rest
  | seg :: rest => renderSegData seg ++ renderNoBlocksData rest

/-- The code characters only (both comment kinds erased). -/
def renderCodeData : List SrcSeg → List Char
  | [] => []
  | SrcSeg.code s :: rest => s.data ++ renderCodeData rest
  | _ :: rest => renderCodeData rest

/-- The comment-free rendering. -/
def renderCode (segs : List SrcSeg) : String :=
  ⟨renderCodeData segs⟩

/-- Per-segment well-formedness: comment delimiters occur only as segment
boundaries, and no delimiter can form across a boundary. -/
def segOk : SrcSeg → Bool
  | SrcSeg.code s =>
    !strContains s "//" && !strContains s "/*" &&
    !(s.data.head? == some '/') && !(s.data.head? == some '*') &&
    !(s.data.getLast? == some '/')
  | SrcSeg.lineComment s =>
    !strContains s "\n" && !strContains s "/*" && !(s.data.head? == some '*')
  | SrcSeg.blockComment s => !strContains s "*/"

/-- Chain condition: a line comment is terminated by the newline opening
the next segment, which must be a code segment starting with `\n` (or the
line comment is last). -/
def chainOk : List SrcSeg → Bool
  | [] => true
  | SrcSeg.lineComment _ :: [] => true
  | SrcSeg.lineComment _ :: next :: rest =>
    (match next with
     | SrcSeg.code t => t.data.head? == some '\n'
     | _ => false) && chainOk (next :: rest)
  | _ :: rest => chainOk rest

/-- Well-formed segment decomposition. -/
def wfSegs (segs : List SrcSeg) : Bool :=
  segs.all segOk && chainOk segs

/-- An EA source whose OnTester declaration sits entirely inside a block
comment. -/
def ontesterBlockCommentLines : List String :=
  ["/*", "double OnTester()", "\x7b", "   return 0.0;", "\x7d", "*/",
   "int OnInit() \x7b return(INIT_SUCCEEDED); \x7d"]

/-- The joined block-commented source. -/
def ontesterBlockCommentSource : String :=
  joinLines ontesterBlockCommentLines

/-- Filesystem with the block-commented EA. -/
def fsOntesterBlockComment : FS :=
  [(⟨"experts", "Commented.mq5"⟩, FileContent.textFile ontesterBlockCommentSource)]

/-- The segment decomposition of `ontesterBlockCommentSource`. -/
def ontesterBlockCommentSegs : List SrcSeg :=
  [SrcSeg.blockComment "\ndouble OnTester()\n\x7b\n   return 0.0;\n\x7d\n",
   SrcSeg.code "\nint OnInit() \x7b return(INIT_SUCCEEDED); \x7d"]

/-- A segment decomposition whose comments mention every safety conflict
construct while the code mentions none. -/
def demoSafetySegs : List SrcSeg :=
  [SrcSeg.code "input int FastPeriod = 10;\n",
   SrcSeg.blockComment " input double OldMaxSpread = 5; bool IsSpreadOk() ",
   SrcSeg.code "\nint OnInit() \x7b return(INIT_SUCCEEDED); \x7d",
   SrcSeg.lineComment " #define OrderSend X and input double MaxSlippage",
   SrcSeg.code "\nvoid OnTick() \x7b \x7d\n"]

/-- Filesystem with the rendered demo source at `experts/Demo.mq5`. -/
def fsSafetyDemo : FS :=
  [(⟨"experts", "Demo.mq5"⟩, FileContent.textFile (renderSegs demoSafetySegs))]

/-- The warning text appended by a rejected transition. -/
def invalidWarn (s t : WorkflowStatus) (now : String) : String :=
  "[" ++ now ++ "] " ++ ("Invalid state transition: " ++ s.value ++ " -> " ++ t.value)

/-- The spec's adjacency table, as the explicit list of legal
(current, target) pairs: pending→running; running→completed/failed/paused;
paused→running/failed; failed→running; completed→∅. -/
def specAdjacency : List (WorkflowStatus × WorkflowStatus) :=
  [(.pending, .running),
   (.running, .completed), (.running, .failed), (.running, .paused),
   (.paused, .running), (.paused, .failed),
   (.failed, .running)]

/-- A freshly created workflow record (status `pending`). -/
def sampleWorkflow : WorkflowState :=
  { workflow_id := "wf-1"
    ea_name := "SampleEA"
    ea_path := "experts/SampleEA.mq5"
    status := WorkflowStatus.pending
    created_at := "t0" }

/-- `sampleWorkflow` after `start` at `t1` (running, `started_at = t1`). -/
def wfRun1 : WorkflowState := (sampleWorkflow.start "t1").2

/-- `wfRun1` after `fail` at `t2` (failed, `completed_at = t2`). -/
def wfFail1 : WorkflowState := (wfRun1.fail "t2" none).2

/-- `wfFail1` after `retry` at `t3` (running again). -/
def wfRun2 : WorkflowState := (wfFail1.retry "t3").2

/-- `wfRun2` after a second `fail` at `t4`. -/
def wfFail2 : WorkflowState := (wfRun2.fail "t4" none).2

/-- Filesystem after a first `analyze_parameters` call (workflow `wf`,
source `srcA`) on an empty filesystem: holds the written request. -/
def step4FsAfterFirstCall : FS :=
  applyWrites [] (analyze_parameters [] "wf" [] [] "srcA" "runs/analysis").2

/-- A filesystem holding an existing step-8C request for workflow `wf`
and no response. -/
def step8cFsWithRequest : FS :=
  [(step8cRequestPath "wf", FileContent.jsonFile Json.null)]

/-- A validated proposal carrying a structured-diff patch. -/
def sampleProposalWithPatch : LLMProposalResult :=
  { success := true, status := "validated",
    ea_patch := some { description := Json.str "tweak", diff := Json.str "--- a/EA.mq5" } }

/-- Filesystem for the review scenario: a baseline EA and an approving
decision. -/
def fsReviewApproved : FS :=
  [(⟨"experts", "Alpha.mq5"⟩, FileContent.textFile "int OnInit() \x7b return 0; \x7d"),
   (decisionPath "wf", FileContent.jsonFile (Json.obj [("approved", Json.bool true)]))]

/-- Filesystem with a decision file that parses but has no `approved` key. -/
def fsDecisionNoApproved : FS :=
  [(decisionPath "wf", FileContent.jsonFile (Json.obj [("note", Json.str "hi")]))]

/-- Filesystem with an unparseable decision file. -/
def fsDecisionBadJson : FS :=
  [(decisionPath "wf", FileContent.badJson "not json")]

/-! ## Spec-side schema predicates (for the refinement claims)

These definitions follow the *spec's words* for "schema-valid" — all
required fields present with correct types, plus the conditional
requirements — and are compared against the code's validators.  The
numeric checks reuse `pyIsNumber`, which (like the implementation's
`isinstance(x, (int, float))`) also accepts booleans. -/

/-- Declarative validity of one `optimization_ranges` entry (step 4). -/
def step4ItemValidSpec (item : Json) : Bool :=
  item.pyIsDict &&
  item.hasKey "name" && (item.get "name").pyIsStr &&
  item.hasKey "optimize" && (item.get "optimize").pyIsBool &&
  (if (item.get "optimize").asBool then
     item.hasKey "start" && (item.get "start").pyIsNumber &&
     item.hasKey "step" && (item.get "step").pyIsNumber &&
     item.hasKey "stop" && (item.get "stop").pyIsNumber
   else item.hasKey "default" && (item.get "default").pyIsNumber) &&
  (!item.hasKey "category" || (item.get "category").pyIsStr) &&
  (!item.hasKey "rationale" || (item.get "rationale").pyIsStr)

/-- Declarative schema validity of a step-4 response. -/
def step4SchemaValidSpec (r : Json) : Bool :=
  r.hasKey "wide_validation_params" && r.hasKey "optimization_ranges" &&
  (match r.get "wide_validation_params" with
   | Json.obj fields => fields.all (fun kv => kv.2.pyIsScalar)
   | _ => false) &&
  (match r.get "optimization_ranges" with
   | Json.arr items => items.all step4ItemValidSpec
   | _ => false)

/-- Declarative validity of one `param_actions` entry (step 8C). -/
def paramActionValidSpec (a : Json) : Bool :=
  a.pyIsDict && a.hasKey "name" && a.hasKey "action" && a.hasKey "rationale" &&
  a.hasKey "evidence" && (a.get "evidence").pyIsList

/-- Declarative validity of one `range_refinements` entry (step 8C). -/
def rangeRefinementValidSpec (x : Json) : Bool :=
  x.pyIsDict && x.hasKey "name" && x.hasKey "start" && x.hasKey "step" &&
  x.hasKey "stop" && (x.get "start").pyIsNumber && (x.get "step").pyIsNumber &&
  (x.get "stop").pyIsNumber

/-- Declarative schema validity of a step-8C response. -/
def step8cSchemaValidSpec (r : Json) : Bool :=
  r.hasKey "param_actions" && r.hasKey "range_refinements" &&
  r.hasKey "expected_impact" && r.hasKey "risks" && r.hasKey "review_required" &&
  (match r.get "param_actions" with
   | Json.arr actions => actions.all paramActionValidSpec
   | _ => false) &&
  (match r.get "range_refinements" with
   | Json.arr refs => refs.all rangeRefinementValidSpec
   | _ => false) &&
  (!(r.hasKey "ea_patch" && !(r.get "ea_patch").isNull) ||
    ((r.get "ea_patch").pyIsDict && (r.get "ea_patch").hasKey "description" &&
      (r.get "ea_patch").hasKey "diff")) &&
  (r.get "expected_impact").pyIsList && (r.get "risks").pyIsList &&
  (r.get "review_required").pyIsBool

/-- A step-8C response with two independent violations: both
`param_actions` and `risks` are missing. -/
def step8cTwoViolationResponse : Json :=
  Json.obj
    [("range_refinements", .arr []),
     ("expected_impact", .arr []),
     ("review_required", .bool true)]

/-- A step-4 response whose single `optimization_ranges` entry has a
non-string `name` (one per-item violation). -/
def step4OneBadItemResponse : Json :=
  Json.obj
    [("wide_validation_params", .obj []),
     ("optimization_ranges", .arr
        [.obj
           [("name", .num 5),
            ("optimize", .bool false),
            ("default", .num 1)]])]

/-- A step-4 response whose `optimize=true` entry carries `start: true` —
a boolean, not a number — yet passes the implementation's
`isinstance(x, (int, float))` check because Python booleans are ints. -/
def step4BoolStartResponse : Json :=
  Json.obj
    [("wide_validation_params", .obj []),
     ("optimization_ranges", .arr
        [.obj
           [("name", .str "Lots"),
            ("optimize", .bool true),
            ("start", .bool true),
            ("step", .num 1),
            ("stop", .num 2)]])]

/-! ## Theorems -/

theorem alistGet_alistSet_self {κ α : Type} [DecidableEq κ] (steps : List (κ × α))
    (k : κ) (v : α) : alistGet k (alistSet steps k v) = some v := by
  unfold alistSet
  by_cases h : steps.any (fun p => p.1 = k)
  · rw [if_pos h]
    induction steps with
    | nil => simp at h
    | cons p rest ih =>
      obtain ⟨a, b⟩ := p
      by_cases hp : a = k
      · subst hp
        have hmap : List.map (fun p => if p.1 = a then (a, v) else p) ((a, b) :: rest) =
            (a, v) :: List.map (fun p => if p.1 = a then (a, v) else p) rest := by
          simp
        rw [hmap]
        simp [alistGet]
      · simp only [List.any_cons] at h
        have h2 : rest.any (fun p => p.1 = k) := by
          rcases (by simpa using h) with h1 | h1
          · exact absurd h1 hp
          · simpa using h1
        simp only [List.map_cons]
        rw [if_neg (by simpa using hp)]
        simp only [alistGet]
        rw [if_neg (fun hk => hp hk.symm)]
        exact ih h2
  · rw [if_neg h]
    induction steps with
    | nil => simp [alistGet]
    | cons p rest ih =>
      obtain ⟨a, b⟩ := p
      simp only [List.any_cons, Bool.or_eq_true, decide_eq_true_eq] at h
      push_neg at h
      simp only [List.cons_append, alistGet]
      rw [if_neg (fun hk => h.1 hk.symm)]
      exact ih (by simpa using h.2)

theorem alistGet_setStep_self (steps : List (String × StepResult)) (k : String)
    (v : StepResult) : alistGet k (WorkflowState.setStep steps k v) = some v := by
  unfold WorkflowState.setStep
  exact alistGet_alistSet_self steps k v

/-- After `update_step(..., RUNNING)` with a real (non-empty) timestamp, the
touched step exists and its `started_at` is truthy. -/
theorem step_started_truthy (w : WorkflowState) (now sid : String) (hnow : now ≠ "") :
    ∃ s, alistGet sid (w.update_step now sid StepStatus.running).steps = some s ∧
      pyTruthyStr s.started_at := by
  unfold WorkflowState.update_step
  simp only
  rw [alistGet_setStep_self]
  cases hl : alistGet sid w.steps with
  | none => exact ⟨_, rfl, by simp [hl, pyTruthyStr, hnow]⟩
  | some s =>
    cases hsa : s.started_at with
    | none => exact ⟨_, rfl, by simp [hl, hsa, pyTruthyStr, hnow]⟩
    | some t0 =>
      by_cases ht : t0 = ""
      · exact ⟨_, rfl, by simp [hl, hsa, ht, pyTruthyStr, hnow]⟩
      · exact ⟨_, rfl, by simp [hl, hsa, ht, pyTruthyStr]⟩

/-- `update_step(..., RUNNING)` on a step whose `started_at` is already
truthy leaves `started_at` unchanged. -/
theorem update_step_running_preserves_started (w : WorkflowState) (now2 sid : String)
    (s : StepResult) (hl : alistGet sid w.steps = some s)
    (hs : pyTruthyStr s.started_at) :
    ∃ s2, alistGet sid (w.update_step now2 sid StepStatus.running).steps = some s2 ∧
      s2.started_at = s.started_at := by
  unfold WorkflowState.update_step
  simp only
  rw [alistGet_setStep_self]
  cases hsa : s.started_at with
  | none => rw [hsa] at hs; simp [pyTruthyStr] at hs
  | some t0 =>
    have ht : t0 ≠ "" := by rw [hsa] at hs; simpa [pyTruthyStr] using hs
    exact ⟨_, rfl, by simp [hl, hsa, ht, pyTruthyStr]⟩

/-- Characterization of `transition_to` on a legal move, field by field:
returns true, sets the status, leaves warnings/errors/steps untouched,
stamps `started_at` only on first (truthy-guarded) entry into running, and
stamps `completed_at` on every entry into completed/failed. -/
theorem transition_to_legal (w : WorkflowState) (now : String) (t : WorkflowStatus)
    (h : t ∈ WorkflowState.validTransitions w.status) :
    (w.transition_to now t).1 = true ∧
    (w.transition_to now t).2.status = t ∧
    (w.transition_to now t).2.warnings = w.warnings ∧
    (w.transition_to now t).2.errors = w.errors ∧
    (w.transition_to now t).2.steps = w.steps ∧
    (w.transition_to now t).2.started_at =
      (if t = WorkflowStatus.running ∧ ¬ pyTruthyStr w.started_at then some now
       else w.started_at) ∧
    (w.transition_to now t).2.completed_at =
      (if t = WorkflowStatus.completed ∨ t = WorkflowStatus.failed then some now
       else w.completed_at) := by
  unfold WorkflowState.transition_to
  rw [if_pos h]
  by_cases h1 : pyTruthyStr w.started_at <;> cases t <;> simp [h1]

/-- Characterization of `transition_to` on an illegal move. -/
theorem transition_to_illegal (w : WorkflowState) (now : String) (t : WorkflowStatus)
    (h : t ∉ WorkflowState.validTransitions w.status) :
    w.transition_to now t =
      (false, { w with warnings := w.warnings ++ [invalidWarn w.status t now] }) := by
  unfold WorkflowState.transition_to
  rw [if_neg h]
  rfl

/-- The code's `valid_transitions` table coincides with the spec's
adjacency list. -/
theorem validTransitions_eq_specAdjacency (s t : WorkflowStatus) :
    t ∈ WorkflowState.validTransitions s ↔ (s, t) ∈ specAdjacency := by
  cases s <;> cases t <;> simp [WorkflowState.validTransitions, specAdjacency]

/-- C1: for every workflow state and target status, `transition_to` returns
true and sets the status to the target exactly when the (current, target)
pair is in the fixed adjacency pending→running, running→completed/failed/paused,
paused→running/failed, failed→running, completed→∅; for every other pair it
returns false, appends exactly one warning, and leaves the status unchanged. -/
theorem transition_to_respects_adjacency (w : WorkflowState) (now : String)
    (t : WorkflowStatus) :
    ((w.transition_to now t).1 = true ↔ (w.status, t) ∈ specAdjacency) ∧
    ((w.status, t) ∈ specAdjacency → (w.transition_to now t).2.status = t) ∧
    ((w.status, t) ∉ specAdjacency →
      (w.transition_to now t).1 = false ∧
      (w.transition_to now t).2.status = w.status ∧
      (w.transition_to now t).2.warnings =
        w.warnings ++ [invalidWarn w.status t now]) := by
  by_cases h : t ∈ WorkflowState.validTransitions w.status
  · have hadj := (validTransitions_eq_specAdjacency w.status t).mp h
    obtain ⟨h1, h2, -, -, -, -, -⟩ := transition_to_legal w now t h
    exact ⟨⟨fun _ => hadj, fun _ => h1⟩, fun _ => h2, fun hc => absurd hadj hc⟩
  · have hadj : (w.status, t) ∉ specAdjacency := fun hc =>
      h ((validTransitions_eq_specAdjacency w.status t).mpr hc)
    rw [transition_to_illegal w now t h]
    exact ⟨by simp [hadj], fun hc => absurd hc hadj, fun _ => ⟨rfl, rfl, rfl⟩⟩

/-- C1 witness: from `pending`, moving to `running` succeeds; moving to
`completed` is rejected with exactly one warning and unchanged status. -/
theorem transition_to_respects_adjacency_witness :
    ((sampleWorkflow.transition_to "t1" WorkflowStatus.running).1 = true) ∧
    ((sampleWorkflow.transition_to "t1" WorkflowStatus.completed).1 = false ∧
      (sampleWorkflow.transition_to "t1" WorkflowStatus.completed).2.status =
        sampleWorkflow.status ∧
      (sampleWorkflow.transition_to "t1" WorkflowStatus.completed).2.warnings =
        sampleWorkflow.warnings ++
          [invalidWarn sampleWorkflow.status WorkflowStatus.completed "t1"]) := by
  constructor
  · exact (transition_to_respects_adjacency sampleWorkflow "t1"
      WorkflowStatus.running).1.mpr (by decide)
  · exact (transition_to_respects_adjacency sampleWorkflow "t1"
      WorkflowStatus.completed).2.2 (by decide)

/-- C2 counterexample: `fail("boom")` from a `pending` workflow is rejected
(returns false, status would be illegal) yet the error log is mutated: the
reason is appended to `errors` before the legality check, so the record is
not "unchanged apart from the warning". -/
theorem fail_illegal_mutates_error_log_counterexample :
    (sampleWorkflow.fail "t0" (some "boom")).1 = false ∧
    sampleWorkflow.errors = [] ∧
    (sampleWorkflow.fail "t0" (some "boom")).2.errors = ["[t0] boom"] := by
  refine ⟨?_, rfl, ?_⟩ <;> rfl

/-- C2 amended: a rejected `transition_to` mutates nothing except appending
the one warning, and an illegal transition never silently succeeds; however
`fail(reason)` with a truthy reason appends the reason to the error log even
when the transition is rejected (`fail` with no reason leaves the error log
unchanged). -/
theorem illegal_transition_frame (w : WorkflowState) (now : String)
    (t : WorkflowStatus) (e : String)
    (h : t ∉ WorkflowState.validTransitions w.status)
    (hf : WorkflowStatus.failed ∉ WorkflowState.validTransitions w.status)
    (he : e ≠ "") :
    w.transition_to now t =
      (false, { w with warnings := w.warnings ++ [invalidWarn w.status t now] }) ∧
    w.fail now none =
      (false,
        { w with warnings :=
            w.warnings ++ [invalidWarn w.status WorkflowStatus.failed now] }) ∧
    w.fail now (some e) =
      (false,
        { w with
          errors := w.errors ++ ["[" ++ now ++ "] " ++ e]
          warnings :=
            w.warnings ++ [invalidWarn w.status WorkflowStatus.failed now] }) := by
  refine ⟨transition_to_illegal w now t h, ?_, ?_⟩
  · unfold WorkflowState.fail
    have hc : pyTruthyStr none = false := rfl
    rw [hc]
    simp only [Bool.false_eq_true, if_false]
    exact transition_to_illegal w now WorkflowStatus.failed hf
  · unfold WorkflowState.fail
    have hc : pyTruthyStr (some e) = true := by simp [pyTruthyStr, he]
    rw [hc]
    simp only [if_true, Option.getD_some]
    rw [transition_to_illegal (w.add_error now e) now WorkflowStatus.failed hf]
    rfl

/-- C2 amended witness: concrete `pending` workflow, illegal target
`completed`, reason `"boom"`. -/
theorem illegal_transition_frame_witness :
    sampleWorkflow.transition_to "t0" WorkflowStatus.completed =
      (false,
        { sampleWorkflow with
          warnings := ["[t0] " ++ ("Invalid state transition: pending -> completed")] }) ∧
    sampleWorkflow.fail "t0" none =
      (false,
        { sampleWorkflow with
          warnings := ["[t0] " ++ ("Invalid state transition: pending -> failed")] }) ∧
    sampleWorkflow.fail "t0" (some "boom") =
      (false,
        { sampleWorkflow with
          errors := ["[t0] boom"]
          warnings := ["[t0] " ++ ("Invalid state transition: pending -> failed")] }) := by
  have h := illegal_transition_frame sampleWorkflow "t0" WorkflowStatus.completed "boom"
    (by decide) (by decide) (by decide)
  exact h

/-- C3 counterexample: after running→failed at `t2` (stamping
`completed_at = t2`), the retry cycle failed→running→failed re-enters
`failed` at `t4` — the transition succeeds and *overwrites* `completed_at`
with `t4`, so a later successful transition does change `completed_at`. -/
theorem completed_at_restamped_counterexample :
    (wfRun2.fail "t4" none).1 = true ∧
    wfFail1.completed_at = some "t2" ∧
    wfFail2.completed_at = some "t4" := by
  refine ⟨rfl, rfl, rfl⟩

/-- C3 amended: the workflow's `started_at` (once truthy) is never changed
by any later transition, and a step's `started_at` is not changed by a
second `update_step(..., RUNNING)`; but `completed_at` is re-stamped by
*every* successful transition into completed/failed, not only the first. -/
theorem timestamps_first_occurrence_amended (w : WorkflowState)
    (now now2 sid : String) (t : WorkflowStatus) (t0 : String)
    (hw : w.started_at = some t0) (ht0 : t0 ≠ "") (hnow : now ≠ "") :
    (w.transition_to now2 t).2.started_at = some t0 ∧
    (∃ s1 s2,
      alistGet sid (w.update_step now sid StepStatus.running).steps = some s1 ∧
      alistGet sid ((w.update_step now sid StepStatus.running).update_step now2 sid
          StepStatus.running).steps = some s2 ∧
      s2.started_at = s1.started_at) ∧
    ((t = WorkflowStatus.completed ∨ t = WorkflowStatus.failed) →
      t ∈ WorkflowState.validTransitions w.status →
      (w.transition_to now2 t).2.completed_at = some now2) := by
  refine ⟨?_, ?_, ?_⟩
  · by_cases h : t ∈ WorkflowState.validTransitions w.status
    · obtain ⟨-, -, -, -, -, h6, -⟩ := transition_to_legal w now2 t h
      rw [h6, hw]
      simp [pyTruthyStr, ht0]
    · rw [transition_to_illegal w now2 t h]
      exact hw
  · obtain ⟨s1, hl1, hs1⟩ := step_started_truthy w now sid hnow
    obtain ⟨s2, hl2, hpres⟩ :=
      update_step_running_preserves_started (w.update_step now sid StepStatus.running)
        now2 sid s1 hl1 hs1
    exact ⟨s1, s2, hl1, hl2, hpres⟩
  · intro htc hlegal
    obtain ⟨-, -, -, -, -, -, h7⟩ := transition_to_legal w now2 t hlegal
    rw [h7]
    simp [htc]

/-- C3 amended witness: the running workflow `wfRun1`
(`started_at = some "t1"`), step `"step01"`, target `failed`. -/
theorem timestamps_first_occurrence_amended_witness :
    (wfRun1.transition_to "t3" WorkflowStatus.failed).2.started_at = some "t1" ∧
    (∃ s1 s2,
      alistGet "step01" (wfRun1.update_step "t2" "step01" StepStatus.running).steps =
        some s1 ∧
      alistGet "step01" ((wfRun1.update_step "t2" "step01"
          StepStatus.running).update_step "t3" "step01" StepStatus.running).steps =
        some s2 ∧
      s2.started_at = s1.started_at) ∧
    ((WorkflowStatus.failed = WorkflowStatus.completed ∨
        WorkflowStatus.failed = WorkflowStatus.failed) →
      WorkflowStatus.failed ∈ WorkflowState.validTransitions wfRun1.status →
      (wfRun1.transition_to "t3" WorkflowStatus.failed).2.completed_at = some "t3") :=
  timestamps_first_occurrence_amended wfRun1 "t2" "t3" "step01"
    WorkflowStatus.failed "t1" (by decide) (by decide) (by decide)

theorem stepStatus_value_roundtrip (st : StepStatus) :
    stepStatusOfString st.value = some st := by
  cases st <;> rfl

theorem workflowStatus_value_roundtrip (s : WorkflowStatus) :
    workflowStatusOfString s.value = some s := by
  cases s <;> rfl

theorem stepResult_from_to (s : StepResult) :
    StepResult.from_dict s.to_dict = some s := by
  unfold StepResult.from_dict StepResult.to_dict
  rw [stepStatus_value_roundtrip]
  rfl

theorem mapStepsFromDict_roundtrip (steps : List (String × StepResult)) :
    mapStepsFromDict (steps.map (fun p => (p.1, p.2.to_dict))) = some steps := by
  induction steps with
  | nil => rfl
  | cons p rest ih =>
    obtain ⟨k, s⟩ := p
    simp only [List.map_cons, mapStepsFromDict, stepResult_from_to, ih,
      Option.some_bind]
    rfl

theorem workflowState_from_to (w : WorkflowState) :
    WorkflowState.from_dict w.to_dict = some w := by
  unfold WorkflowState.from_dict WorkflowState.to_dict
  simp only [workflowStatus_value_roundtrip, mapStepsFromDict_roundtrip,
    Option.some_bind]
  rfl

/-- C4 counterexample: with the step-4 request already on disk and no
response, a second `analyze_parameters` call *rewrites* the request file
(`write_analysis_request` has no existence check): invoked with a different
`ea_source` it replaces the artifact with different content, so the request
file is not byte-for-byte identical after the second invocation. -/
theorem step4_request_rewritten_counterexample :
    (analyze_parameters step4FsAfterFirstCall "wf" [] [] "srcB" "runs/analysis").1.status =
      "request_written" ∧
    alistGet (step4RequestPath "runs/analysis" "wf") step4FsAfterFirstCall =
      some (FileContent.jsonFile (buildStep4Request "wf" [] [] "srcA")) ∧
    alistGet (step4RequestPath "runs/analysis" "wf")
        (applyWrites step4FsAfterFirstCall
          (analyze_parameters step4FsAfterFirstCall "wf" [] [] "srcB" "runs/analysis").2) =
      some (FileContent.jsonFile (buildStep4Request "wf" [] [] "srcB")) ∧
    buildStep4Request "wf" [] [] "srcA" ≠ buildStep4Request "wf" [] [] "srcB" := by
  refine ⟨rfl, rfl, rfl, ?_⟩
  intro h
  have h1 : (buildStep4Request "wf" [] [] "srcA").get "ea_source" = Json.str "srcA" := rfl
  have h2 : (buildStep4Request "wf" [] [] "srcB").get "ea_source" = Json.str "srcB" := rfl
  rw [h] at h1
  rw [h2] at h1
  exact absurd (Json.str.inj h1) (by decide)

/-- C4 amended: the step-8C protocol never rewrites an existing request
(no writes at all while awaiting, reporting `request_written`); the step-4
protocol also reports `request_written` while awaiting but *rewrites* the
request artifact on every invocation — its content (hence its bytes) is
unchanged only because the rewrite carries the same inputs. -/
theorem request_idempotency_amended (fs : FS) (sed : Json) (p1 : List Json)
    (pum : List (String × Json)) (src wfid : String) (params : List Json)
    (usage : List (String × Json)) (ea_source outdir : String) (c : FileContent)
    (hreq : alistGet (step8cRequestPath wfid) fs = some c)
    (hresp : alistGet (step8cResponsePath wfid) fs = none)
    (hresp4 : alistGet (step4ResponsePath outdir wfid) fs = none) :
    (generate_llm_proposal fs sed p1 pum src wfid).1.status = "request_written" ∧
    (generate_llm_proposal fs sed p1 pum src wfid).2 = [] ∧
    (analyze_parameters fs wfid params usage ea_source outdir).1.status =
      "request_written" ∧
    (analyze_parameters fs wfid params usage ea_source outdir).2 =
      [(step4RequestPath outdir wfid,
        FileContent.jsonFile (buildStep4Request wfid params usage ea_source))] ∧
    alistGet (step4RequestPath outdir wfid)
        (applyWrites fs (analyze_parameters fs wfid params usage ea_source outdir).2) =
      some (FileContent.jsonFile (buildStep4Request wfid params usage ea_source)) := by
  have h8 : generate_llm_proposal fs sed p1 pum src wfid =
      ({ success := true, status := "request_written",
         request_path := some (step8cRequestPath wfid).render,
         error_message :=
           some "Waiting for external LLM to provide step8c_response.json" }, []) := by
    unfold generate_llm_proposal
    simp only [LLM_IMPROVEMENT_ENABLED, Bool.not_true, Bool.false_eq_true, if_false,
      hreq, hresp]
    rfl
  have h4 : analyze_parameters fs wfid params usage ea_source outdir =
      ({ wide_validation_params := .obj [], optimization_ranges := .arr [],
         request_path := (step4RequestPath outdir wfid).render,
         response_path := (step4ResponsePath outdir wfid).render,
         status := "request_written" },
       [(step4RequestPath outdir wfid,
         FileContent.jsonFile (buildStep4Request wfid params usage ea_source))]) := by
    simp only [analyze_parameters, hresp4]
  refine ⟨by rw [h8], by rw [h8], by rw [h4], by rw [h4], ?_⟩
  rw [h4]
  exact alistGet_alistSet_self fs _ _

/-- C4 amended witness: workflow `wf`, a planted step-8C request, empty
inputs. -/
theorem request_idempotency_amended_witness :
    (generate_llm_proposal step8cFsWithRequest Json.null [] [] "src" "wf").1.status =
      "request_written" ∧
    (generate_llm_proposal step8cFsWithRequest Json.null [] [] "src" "wf").2 = [] ∧
    (analyze_parameters step8cFsWithRequest "wf" [] [] "srcA" "runs/analysis").1.status =
      "request_written" ∧
    (analyze_parameters step8cFsWithRequest "wf" [] [] "srcA" "runs/analysis").2 =
      [(step4RequestPath "runs/analysis" "wf",
        FileContent.jsonFile (buildStep4Request "wf" [] [] "srcA"))] ∧
    alistGet (step4RequestPath "runs/analysis" "wf")
        (applyWrites step8cFsWithRequest
          (analyze_parameters step8cFsWithRequest "wf" [] [] "srcA" "runs/analysis").2) =
      some (FileContent.jsonFile (buildStep4Request "wf" [] [] "srcA")) :=
  request_idempotency_amended step8cFsWithRequest Json.null [] [] "src" "wf" [] []
    "srcA" "runs/analysis" (FileContent.jsonFile Json.null) rfl rfl rfl

theorem if_single_eq_nil_iff (c : Bool) (m : String) :
    ((if c = true then [m] else []) = []) ↔ c = false := by
  cases c <;> simp

theorem if_chain2_eq_nil_iff (c1 c2 : Bool) (m1 m2 : String) :
    ((if c1 = true then [m1] else if c2 = true then [m2] else []) = []) ↔
      (c1 = false ∧ c2 = false) := by
  cases c1 <;> cases c2 <;> simp

theorem optNumFieldErrors_nil_iff (i : Nat) (item : Json) (f : String) :
    optNumFieldErrors i item f = [] ↔
      (item.hasKey f && (item.get f).pyIsNumber) = true := by
  unfold optNumFieldErrors
  rw [if_chain2_eq_nil_iff]
  cases h1 : item.hasKey f <;> cases h2 : (item.get f).pyIsNumber <;> simp

theorem hasKey_of_lookup_getD_bool (item : Json) (k : String) (b : Bool)
    (h : item.get k = Json.bool b) :
    (item.lookup k).getD (Json.bool false) = Json.bool b := by
  unfold Json.get at h
  cases hl : item.lookup k with
  | none => rw [hl] at h; simp [Option.getD] at h
  | some j => rw [hl] at h; simp [Option.getD] at h ⊢; exact h

theorem optRangeItemErrors_nil_iff (i : Nat) (item : Json) :
    optRangeItemErrors i item = [] ↔ step4ItemValidSpec item = true := by
  unfold optRangeItemErrors step4ItemValidSpec
  cases hd : item.pyIsDict
  · simp
  · simp only [Bool.not_true, Bool.false_eq_true, if_false, List.append_eq_nil,
      if_chain2_eq_nil_iff, if_single_eq_nil_iff, Bool.true_and]
    cases hn : item.hasKey "name" <;>
      cases hns : (item.get "name").pyIsStr <;>
        cases hop : item.hasKey "optimize" <;>
          cases hob : (item.get "optimize").pyIsBool <;>
            simp_all [optNumFieldErrors_nil_iff]
    · -- all four leading checks pass: relate the two conditionals
      cases hj : item.get "optimize" <;> simp [hj, Json.pyIsBool] at hob
      next b =>
        rw [hasKey_of_lookup_getD_bool item "optimize" b hj]
        rcases Bool.eq_false_or_eq_true (item.hasKey "default") with hdef | hdef <;>
          rcases Bool.eq_false_or_eq_true ((item.get "default").pyIsNumber) with
            hdn | hdn <;>
          cases b <;>
            simp [Json.pyTruthy, Json.asBool, List.append_eq_nil, hdef, hdn,
              optNumFieldErrors_nil_iff, and_assoc, Decidable.imp_iff_not_or]

theorem wideParamsErrors_nil_iff (fields : List (String × Json)) :
    wideParamsErrors fields = [] ↔
      fields.all (fun kv => kv.2.pyIsScalar) = true := by
  induction fields with
  | nil => simp [wideParamsErrors]
  | cons kv rest ih =>
    obtain ⟨k, v⟩ := kv
    cases hv : v.pyIsScalar <;>
      simp [wideParamsErrors, hv, ih, List.append_eq_nil]

theorem optRangesErrors_nil_iff (i : Nat) (items : List Json) :
    optRangesErrors i items = [] ↔ items.all step4ItemValidSpec = true := by
  induction items generalizing i with
  | nil => simp [optRangesErrors]
  | cons x rest ih =>
    simp [optRangesErrors, List.append_eq_nil, optRangeItemErrors_nil_iff, ih]

theorem hasKey_of_get_ne_null (r : Json) (k : String)
    (h : ¬ r.get k = Json.null) : r.hasKey k = true := by
  unfold Json.get at h
  unfold Json.hasKey
  cases hl : r.lookup k with
  | none => rw [hl] at h; exact absurd rfl h
  | some j => rfl

/-- Step-4 validator: the accumulated error list is empty exactly on
schema-valid responses (with the implementation's numeric typing). -/
theorem step4_validator_nil_iff (r : Json) :
    validateResponseSchemaStep4 r = [] ↔ step4SchemaValidSpec r = true := by
  unfold validateResponseSchemaStep4 step4SchemaValidSpec
  cases hw : r.hasKey "wide_validation_params" <;>
    cases ho : r.hasKey "optimization_ranges"
  · simp
  · simp
  · simp
  · cases hwp : r.get "wide_validation_params" <;>
      cases hor : r.get "optimization_ranges" <;>
        simp [hwp, hor, wideParamsErrors_nil_iff, optRangesErrors_nil_iff,
          List.append_eq_nil]

theorem checkParamAction_none_iff (i : Nat) (a : Json) :
    checkParamAction i a = none ↔ paramActionValidSpec a = true := by
  unfold checkParamAction paramActionValidSpec
  split_ifs <;> simp_all

theorem checkRangeRefinementItem_none_iff (i : Nat) (x : Json) :
    checkRangeRefinementItem i x = none ↔ rangeRefinementValidSpec x = true := by
  unfold checkRangeRefinementItem rangeRefinementValidSpec
  split_ifs <;> simp_all

theorem firstItemError_none_iff (check : Nat → Json → Option String)
    (spec : Json → Bool) (hc : ∀ i x, check i x = none ↔ spec x = true)
    (i : Nat) (items : List Json) :
    firstItemError check i items = none ↔ items.all spec = true := by
  induction items generalizing i with
  | nil => simp [firstItemError]
  | cons x rest ih =>
    simp only [firstItemError, List.all_cons]
    cases hx : check i x with
    | some e =>
      have hsx : ¬ spec x = true := fun hs => by
        have := (hc i x).mpr hs
        rw [hx] at this
        cases this
      simp [hsx]
    | none =>
      have hsx : spec x = true := (hc i x).mp hx
      simp [hsx, ih]

theorem checkEaPatch_none_iff (r : Json) :
    checkEaPatch r = none ↔
      (!(r.hasKey "ea_patch" && !(r.get "ea_patch").isNull) ||
        ((r.get "ea_patch").pyIsDict && (r.get "ea_patch").hasKey "description" &&
          (r.get "ea_patch").hasKey "diff")) = true := by
  unfold checkEaPatch
  cases hk : r.hasKey "ea_patch" <;>
    cases hn : (r.get "ea_patch").isNull <;>
      cases hd : (r.get "ea_patch").pyIsDict <;>
        cases hd1 : (r.get "ea_patch").hasKey "description" <;>
          cases hd2 : (r.get "ea_patch").hasKey "diff" <;>
            simp [hk, hn, hd, hd1, hd2]

/-- Step-8C validator: accepted exactly on schema-valid responses. -/
theorem step8c_validator_true_iff (r : Json) :
    (validateResponseSchema8C r).1 = true ↔ step8cSchemaValidSpec r = true := by
  unfold validateResponseSchema8C step8cSchemaValidSpec
  cases hk1 : r.hasKey "param_actions" with
  | false => simp [hk1]
  | true =>
  cases hk2 : r.hasKey "range_refinements" with
  | false => simp [hk1, hk2]
  | true =>
  cases hk3 : r.hasKey "expected_impact" with
  | false => simp [hk1, hk2, hk3]
  | true =>
  cases hk4 : r.hasKey "risks" with
  | false => simp [hk1, hk2, hk3, hk4]
  | true =>
  cases hk5 : r.hasKey "review_required" with
  | false => simp [hk1, hk2, hk3, hk4, hk5]
  | true =>
  simp only [hk1, hk2, hk3, hk4, hk5, Bool.not_true, Bool.false_eq_true, if_false,
    Bool.true_and]
  cases hpa : r.get "param_actions"
  case arr actions =>
    cases hfe : firstItemError checkParamAction 0 actions with
    | some e =>
      have hna : ¬ actions.all paramActionValidSpec = true := fun hall => by
        have := (firstItemError_none_iff checkParamAction paramActionValidSpec
          checkParamAction_none_iff 0 actions).mpr hall
        rw [hfe] at this
        cases this
      simp [hfe, hna]
    | none =>
      have hall : actions.all paramActionValidSpec = true :=
        (firstItemError_none_iff checkParamAction paramActionValidSpec
          checkParamAction_none_iff 0 actions).mp hfe
      simp only [hall, Bool.true_and]
      cases hrr : r.get "range_refinements"
      case arr refs =>
        cases hfr : firstItemError checkRangeRefinementItem 0 refs with
        | some e =>
          have hnr : ¬ refs.all rangeRefinementValidSpec = true := fun hall2 => by
            have := (firstItemError_none_iff checkRangeRefinementItem
              rangeRefinementValidSpec checkRangeRefinementItem_none_iff 0
              refs).mpr hall2
            rw [hfr] at this
            cases this
          simp [hfe, hfr, hnr]
        | none =>
          have hall2 : refs.all rangeRefinementValidSpec = true :=
            (firstItemError_none_iff checkRangeRefinementItem
              rangeRefinementValidSpec checkRangeRefinementItem_none_iff 0
              refs).mp hfr
          simp only [hall2, Bool.true_and]
          cases hep : checkEaPatch r with
          | some e =>
            have hnp : ¬ (!(r.hasKey "ea_patch" && !(r.get "ea_patch").isNull) ||
                ((r.get "ea_patch").pyIsDict &&
                  (r.get "ea_patch").hasKey "description" &&
                  (r.get "ea_patch").hasKey "diff")) = true := fun hb => by
              have := (checkEaPatch_none_iff r).mpr hb
              rw [hep] at this
              cases this
            refine iff_of_false (by simp [hfe, hfr, hep]) (fun hc => hnp ?_)
            simp only [Bool.and_eq_true] at hc
            tauto
          | none =>
            have hb := (checkEaPatch_none_iff r).mp hep
            simp only [hb, Bool.true_and]
            cases he1 : (r.get "expected_impact").pyIsList <;>
              cases he2 : (r.get "risks").pyIsList <;>
                cases he3 : (r.get "review_required").pyIsBool <;>
                  simp [hfe, hfr, hep, he1, he2, he3]
      all_goals simp [hfe, hrr]
  all_goals simp [hpa]

theorem mem_optRangesErrors (items : List Json) :
    ∀ (i0 i : Nat) (item : Json), items.get? i = some item →
      ∀ e ∈ optRangeItemErrors (i0 + i) item, e ∈ optRangesErrors i0 items := by
  induction items with
  | nil => intro i0 i item h; simp at h
  | cons x rest ih =>
    intro i0 i item h e he
    cases i with
    | zero =>
      rw [List.get?_cons_zero] at h
      cases h
      exact List.mem_append_left _ (by simpa using he)
    | succ j =>
      rw [List.get?_cons_succ] at h
      have harith : i0 + (j + 1) = (i0 + 1) + j := by omega
      rw [harith] at he
      exact List.mem_append_right _ (ih (i0 + 1) j item h e he)

/-- C5 counterexample: (a) the step-8C validator does not accumulate: on a
response with two independent violations (missing `param_actions` *and*
missing `risks`) it reports only the first as a single message; (b) the
step-4 validator returns an *empty* violation list for an `optimize=true`
entry whose `start` is the boolean `true` — not a number — because Python's
`isinstance(x, (int, float))` accepts booleans.  Both refute the claim's
"complete list, empty iff schema-valid (numeric start/step/stop)". -/
theorem validator_accumulation_counterexample :
    validateResponseSchema8C step8cTwoViolationResponse =
      (false, "Missing required field: param_actions") ∧
    validateResponseSchemaStep4 step4BoolStartResponse = [] := by
  exact ⟨rfl, rfl⟩

/-- C5 amended: the step-4 validator's list is empty exactly on schema-valid
responses (where — as in the implementation — booleans pass the numeric
checks), and it accumulates: whenever both required top-level fields are
present, every violation of every `optimization_ranges` entry appears in the
returned list; the step-8C validator likewise accepts exactly the
schema-valid responses but stops at the first violation and returns a single
message rather than a list. -/
theorem validators_amended :
    (∀ r : Json, validateResponseSchemaStep4 r = [] ↔
      step4SchemaValidSpec r = true) ∧
    (∀ (r : Json) (items : List Json) (i : Nat) (item : Json),
      r.hasKey "wide_validation_params" = true →
      r.get "optimization_ranges" = Json.arr items →
      items.get? i = some item →
      ∀ e ∈ optRangeItemErrors i item, e ∈ validateResponseSchemaStep4 r) ∧
    (∀ r : Json, (validateResponseSchema8C r).1 = true ↔
      step8cSchemaValidSpec r = true) := by
  refine ⟨step4_validator_nil_iff, ?_, step8c_validator_true_iff⟩
  intro r items i item hw ho hi e he
  have hko : r.hasKey "optimization_ranges" = true :=
    hasKey_of_get_ne_null r _ (by rw [ho]; intro h; cases h)
  have hmem : e ∈ optRangesErrors 0 items := by
    have := mem_optRangesErrors items 0 i item hi e (by simpa using he)
    exact this
  unfold validateResponseSchemaStep4
  simp only [hw, hko, Bool.not_true, Bool.false_eq_true, if_false,
    List.append_nil, List.nil_append, List.isEmpty_nil]
  rw [ho]
  exact List.mem_append_right _ hmem

/-- C5 amended witness: concrete instantiations — the bool-start response is
accepted (and is spec-valid under the implementation's numeric typing), the
bad-name violation of `step4OneBadItemResponse` appears in its returned
list, and the two-violation 8C response is rejected. -/
theorem validators_amended_witness :
    (validateResponseSchemaStep4 step4BoolStartResponse = [] ↔
      step4SchemaValidSpec step4BoolStartResponse = true) ∧
    ("optimization_ranges[0].name must be a string" ∈
      validateResponseSchemaStep4 step4OneBadItemResponse) ∧
    ((validateResponseSchema8C step8cTwoViolationResponse).1 = true ↔
      step8cSchemaValidSpec step8cTwoViolationResponse = true) := by
  refine ⟨validators_amended.1 step4BoolStartResponse, ?_,
    validators_amended.2.2 step8cTwoViolationResponse⟩
  exact validators_amended.2.1 step4OneBadItemResponse
    [Json.obj [("name", .num 5), ("optimize", .bool false), ("default", .num 1)]]
    0 (Json.obj [("name", .num 5), ("optimize", .bool false), ("default", .num 1)])
    rfl rfl rfl "optimization_ranges[0].name must be a string" (by decide)

theorem alistGet_map_setval_ne {κ α : Type} [DecidableEq κ] (k k2 : κ) (v : α)
    (l : List (κ × α)) (h : ¬ k = k2) :
    alistGet k (List.map (fun p => if p.1 = k2 then (k2, v) else p) l) =
      alistGet k l := by
  induction l with
  | nil => rfl
  | cons p rest ih =>
    obtain ⟨a, b⟩ := p
    by_cases hp : a = k2
    · subst hp
      have hmap : List.map (fun p => if p.1 = a then (a, v) else p) ((a, b) :: rest) =
          (a, v) :: List.map (fun p => if p.1 = a then (a, v) else p) rest := by
        simp
      rw [hmap]
      simp only [alistGet]
      rw [if_neg h, if_neg h]
      exact ih
    · have hmap : List.map (fun p => if p.1 = k2 then (k2, v) else p) ((a, b) :: rest) =
          (a, b) :: List.map (fun p => if p.1 = k2 then (k2, v) else p) rest := by
        simp [hp]
      rw [hmap]
      simp only [alistGet]
      by_cases hk : k = a
      · rw [if_pos hk, if_pos hk]
      · rw [if_neg hk, if_neg hk]
        exact ih

theorem alistGet_append_single_ne {κ α : Type} [DecidableEq κ] (k k2 : κ) (v : α)
    (l : List (κ × α)) (h : ¬ k = k2) :
    alistGet k (l ++ [(k2, v)]) = alistGet k l := by
  induction l with
  | nil => simp [alistGet, h]
  | cons p rest ih =>
    obtain ⟨a, b⟩ := p
    simp only [List.cons_append, alistGet]
    by_cases hk : k = a
    · rw [if_pos hk, if_pos hk]
    · rw [if_neg hk, if_neg hk]
      exact ih

theorem alistGet_alistSet_ne {κ α : Type} [DecidableEq κ] (l : List (κ × α))
    (k k2 : κ) (v : α) (h : ¬ k = k2) :
    alistGet k (alistSet l k2 v) = alistGet k l := by
  unfold alistSet
  by_cases ha : l.any (fun p => p.1 = k2)
  · rw [if_pos ha]
    exact alistGet_map_setval_ne k k2 v l h
  · rw [if_neg ha]
    exact alistGet_append_single_ne k k2 v l h

theorem alistGet_applyWrites_not_mem (writes : List (FPath × FileContent))
    (fs : FS) (k : FPath) (h : ∀ w ∈ writes, ¬ w.1 = k) :
    alistGet k (applyWrites fs writes) = alistGet k fs := by
  induction writes generalizing fs with
  | nil => rfl
  | cons w rest ih =>
    obtain ⟨p, c⟩ := w
    simp only [applyWrites]
    rw [ih (alistSet fs p c) (fun w hw => h w (List.mem_cons_of_mem _ hw))]
    exact alistGet_alistSet_ne fs k p c
      (fun hk => h (p, c) (List.mem_cons_self _ _) hk.symm)

/-- The versioned file names (`<stem>_v2<rest>`) never collide with the
baseline's name (`<stem><suffix>`, whose suffix starts with a dot). -/
theorem versioned_name_ne_baseline (stem suffix rest : String) (xs : List Char)
    (hsuf : suffix.data = '.' :: xs) :
    ¬ stem ++ "_v" ++ toString 2 ++ rest = stem ++ suffix := by
  intro h
  have hd := congrArg String.data h
  simp only [String.data_append, List.append_assoc] at hd
  have h2 := List.append_cancel_left hd
  rw [hsuf] at h2
  have h3 : ("_v".data ++ ((toString 2).data ++ rest.data)) =
      '_' :: 'v' :: '2' :: rest.data := rfl
  rw [h3] at h2
  simp at h2

/-- The patched `.mq5` name and the `.patch` sidecar name differ. -/
theorem patched_name_ne_diff_name (stem : String) :
    ¬ stem ++ "_v" ++ toString 2 ++ ".patch" = stem ++ "_v" ++ toString 2 ++ ".mq5" := by
  intro h
  have hd := congrArg String.data h
  simp only [String.data_append, List.append_assoc] at hd
  have h2 := List.append_cancel_left hd
  have h3 : ("_v".data ++ ((toString 2).data ++ ".patch".data)) =
      '_' :: 'v' :: '2' :: ".patch".data := rfl
  have h4 : ("_v".data ++ ((toString 2).data ++ ".mq5".data)) =
      '_' :: 'v' :: '2' :: ".mq5".data := rfl
  rw [h3, h4] at h2
  simp at h2

/-- C8: on approval with a patch present, `review_proposal` reports success,
`approved`, `patch_applied = true`, and names the new versioned file; none of
its writes touches the baseline path, whose content is unchanged; and when
the diff is in structured unified-diff form (`---`/`@@` prefix), the produced
versioned file is byte-for-byte the baseline. -/
theorem review_patch_never_overwrites_baseline
    (fs : FS) (proposal : LLMProposalResult) (patch : EAPatch) (d : String)
    (bdir stem suffix wfid now : String) (cycle : Nat) (baseline_code : String)
    (dec : List (String × Json)) (xs : List Char)
    (hpatch : proposal.ea_patch = some patch)
    (hdiff : patch.diff = Json.str d)
    (hstatus : ¬ proposal.status = "disabled")
    (hsuf : suffix.data = '.' :: xs)
    (hpkg : ¬ stem ++ suffix = "review_package.json")
    (hbase : alistGet (FPath.mk bdir (stem ++ suffix)) fs =
      some (FileContent.textFile baseline_code))
    (hdec : alistGet (decisionPath wfid) fs =
      some (FileContent.jsonFile (Json.obj dec)))
    (happr : ((alistGet "approved" dec).getD (Json.bool false)).pyTruthy = true) :
    (review_proposal fs proposal bdir stem suffix wfid now cycle).1.success = true ∧
    (review_proposal fs proposal bdir stem suffix wfid now cycle).1.status =
      "approved" ∧
    (review_proposal fs proposal bdir stem suffix wfid now cycle).1.patch_applied =
      true ∧
    (review_proposal fs proposal bdir stem suffix wfid now cycle).1.patched_ea_path =
      some (FPath.mk (reviewPatchesDir wfid)
        (stem ++ "_v" ++ toString 2 ++ ".mq5")).render ∧
    (∀ w ∈ (review_proposal fs proposal bdir stem suffix wfid now cycle).2,
      ¬ w.1 = FPath.mk bdir (stem ++ suffix)) ∧
    alistGet (FPath.mk bdir (stem ++ suffix))
        (applyWrites fs (review_proposal fs proposal bdir stem suffix wfid now cycle).2) =
      some (FileContent.textFile baseline_code) ∧
    ((d.startsWith "---" || d.startsWith "@@") = true →
      alistGet (FPath.mk (reviewPatchesDir wfid) (stem ++ "_v" ++ toString 2 ++ ".mq5"))
          (applyWrites fs
            (review_proposal fs proposal bdir stem suffix wfid now cycle).2) =
        some (FileContent.textFile baseline_code)) := by
  have happly : apply_patch fs bdir stem suffix patch wfid = some
      (⟨reviewPatchesDir wfid, stem ++ "_v" ++ toString 2 ++ ".mq5"⟩,
       [(⟨reviewPatchesDir wfid, stem ++ "_v" ++ toString 2 ++ ".mq5"⟩,
         FileContent.textFile
           (if d.startsWith "---" || d.startsWith "@@" then baseline_code
            else if strContains baseline_code "// INSERT_PATCH_HERE" then
              strReplace baseline_code "// INSERT_PATCH_HERE" d
            else baseline_code ++ "\n\n// --- LLM PATCH ---\n" ++ d)),
        (⟨reviewPatchesDir wfid, stem ++ "_v" ++ toString 2 ++ ".patch"⟩,
         FileContent.textFile
           ("Description: " ++ pyStr patch.description ++ "\n\n" ++ d))]) := by
    unfold apply_patch
    rw [hbase, hdiff]
  have hread : read_review_decision fs wfid now = Except.ok (some
      { approved := (alistGet "approved" dec).getD (Json.bool false)
        feedback := alistGet "feedback" dec
        reviewer_notes := alistGet "notes" dec
        timestamp := some now }) := by
    unfold read_review_decision
    rw [hdec]
  have hstat2 : decide (proposal.status = "disabled") = false := by
    simp [hstatus]
  have hrev : review_proposal fs proposal bdir stem suffix wfid now cycle =
      ({ success := true, status := "approved", review_required := true,
         baseline_ea_path := some (FPath.mk bdir (stem ++ suffix)).render,
         active_ea_path := some (FPath.mk (reviewPatchesDir wfid)
           (stem ++ "_v" ++ toString 2 ++ ".mq5")).render,
         patch_applied := true,
         patched_ea_path := some (FPath.mk (reviewPatchesDir wfid)
           (stem ++ "_v" ++ toString 2 ++ ".mq5")).render,
         decision := some
           { approved := (alistGet "approved" dec).getD (Json.bool false)
             feedback := alistGet "feedback" dec
             reviewer_notes := alistGet "notes" dec
             timestamp := some now },
         review_package_path := some (reviewPackagePath wfid).render,
         refinement_cycle := cycle },
       [(reviewPackagePath wfid,
         FileContent.jsonFile
           (buildReviewPackage proposal (FPath.mk bdir (stem ++ suffix)).render
             wfid now)),
        (⟨reviewPatchesDir wfid, stem ++ "_v" ++ toString 2 ++ ".mq5"⟩,
         FileContent.textFile
           (if d.startsWith "---" || d.startsWith "@@" then baseline_code
            else if strContains baseline_code "// INSERT_PATCH_HERE" then
              strReplace baseline_code "// INSERT_PATCH_HERE" d
            else baseline_code ++ "\n\n// --- LLM PATCH ---\n" ++ d)),
        (⟨reviewPatchesDir wfid, stem ++ "_v" ++ toString 2 ++ ".patch"⟩,
         FileContent.textFile
           ("Description: " ++ pyStr patch.description ++ "\n\n" ++ d))]) := by
    unfold review_proposal
    simp only [LLM_REVIEW_REQUIRED, Bool.not_true, Bool.false_eq_true, if_false,
      hpatch, Option.isNone_some, Bool.and_false, Bool.or_false, hstat2,
      hread, happly, happr, if_true]
  rw [hrev]
  refine ⟨rfl, rfl, rfl, rfl, ?_, ?_, ?_⟩
  · intro w hw
    simp only [List.mem_cons, List.mem_singleton, List.not_mem_nil] at hw
    rcases hw with hw | hw | hw | hw
    · subst hw
      intro hcontra
      obtain ⟨-, hname⟩ := FPath.mk.inj hcontra
      exact hpkg hname.symm
    · subst hw
      intro hcontra
      obtain ⟨-, hname⟩ := FPath.mk.inj hcontra
      exact versioned_name_ne_baseline stem suffix ".mq5" xs hsuf hname
    · subst hw
      intro hcontra
      obtain ⟨-, hname⟩ := FPath.mk.inj hcontra
      exact versioned_name_ne_baseline stem suffix ".patch" xs hsuf hname
    · exact absurd hw (by simp)
  · rw [alistGet_applyWrites_not_mem]
    · exact hbase
    · intro w hw
      simp only [List.mem_cons, List.mem_singleton, List.not_mem_nil] at hw
      rcases hw with hw | hw | hw | hw
      · subst hw
        intro hcontra
        obtain ⟨-, hname⟩ := FPath.mk.inj hcontra
        exact hpkg hname.symm
      · subst hw
        intro hcontra
        obtain ⟨-, hname⟩ := FPath.mk.inj hcontra
        exact versioned_name_ne_baseline stem suffix ".mq5" xs hsuf hname
      · subst hw
        intro hcontra
        obtain ⟨-, hname⟩ := FPath.mk.inj hcontra
        exact versioned_name_ne_baseline stem suffix ".patch" xs hsuf hname
      · exact absurd hw (by simp)
  · intro hstruct
    show alistGet _ (applyWrites fs [_, _, _]) = _
    simp only [applyWrites]
    rw [alistGet_alistSet_ne]
    · rw [alistGet_alistSet_self]
      simp [hstruct]
    · intro hcontra
      obtain ⟨-, hname⟩ := FPath.mk.inj hcontra
      exact patched_name_ne_diff_name stem hname.symm

/-- C8 witness: concrete baseline `experts/Alpha.mq5`, approving decision,
structured diff `--- a/EA.mq5`. -/
theorem review_patch_never_overwrites_baseline_witness :
    (review_proposal fsReviewApproved sampleProposalWithPatch "experts" "Alpha"
      ".mq5" "wf" "t0" 0).1.success = true ∧
    (review_proposal fsReviewApproved sampleProposalWithPatch "experts" "Alpha"
      ".mq5" "wf" "t0" 0).1.status = "approved" ∧
    (review_proposal fsReviewApproved sampleProposalWithPatch "experts" "Alpha"
      ".mq5" "wf" "t0" 0).1.patch_applied = true ∧
    (review_proposal fsReviewApproved sampleProposalWithPatch "experts" "Alpha"
      ".mq5" "wf" "t0" 0).1.patched_ea_path =
      some (FPath.mk (reviewPatchesDir "wf")
        ("Alpha" ++ "_v" ++ toString 2 ++ ".mq5")).render ∧
    (∀ w ∈ (review_proposal fsReviewApproved sampleProposalWithPatch "experts"
        "Alpha" ".mq5" "wf" "t0" 0).2,
      ¬ w.1 = FPath.mk "experts" ("Alpha" ++ ".mq5")) ∧
    alistGet (FPath.mk "experts" ("Alpha" ++ ".mq5"))
        (applyWrites fsReviewApproved
          (review_proposal fsReviewApproved sampleProposalWithPatch "experts"
            "Alpha" ".mq5" "wf" "t0" 0).2) =
      some (FileContent.textFile "int OnInit() \x7b return 0; \x7d") ∧
    ((("--- a/EA.mq5").startsWith "---" || ("--- a/EA.mq5").startsWith "@@") = true →
      alistGet (FPath.mk (reviewPatchesDir "wf")
          ("Alpha" ++ "_v" ++ toString 2 ++ ".mq5"))
          (applyWrites fsReviewApproved
            (review_proposal fsReviewApproved sampleProposalWithPatch "experts"
              "Alpha" ".mq5" "wf" "t0" 0).2) =
        some (FileContent.textFile "int OnInit() \x7b return 0; \x7d")) :=
  review_patch_never_overwrites_baseline fsReviewApproved sampleProposalWithPatch
    ⟨Json.str "tweak", Json.str "--- a/EA.mq5"⟩ "--- a/EA.mq5" "experts" "Alpha"
    ".mq5" "wf" "t0" 0 "int OnInit() \x7b return 0; \x7d"
    [("approved", Json.bool true)] ".mq5".data.tail
    rfl rfl (by decide) rfl (by decide) rfl rfl (by decide)

/-- C10: malformed review decisions are handled leniently: a decision file
that parses as JSON but lacks the `approved` key yields a decision with
`approved = False` and `review_proposal` reports a rejection; a decision
file that exists but is not parseable JSON yields no decision and
`review_proposal` reports `pending_review`. -/
theorem review_decision_leniency
    (fs1 fs2 : FS) (proposal : LLMProposalResult)
    (bdir stem suffix wfid now : String) (cycle : Nat)
    (dec : List (String × Json)) (raw : String)
    (hstatus : ¬ proposal.status = "disabled")
    (hcontent : proposal.ea_patch.isNone = false ∨
      proposal.param_actions.isEmpty = false ∨
      proposal.range_refinements.isEmpty = false)
    (hdec1 : alistGet (decisionPath wfid) fs1 =
      some (FileContent.jsonFile (Json.obj dec)))
    (hnoappr : alistGet "approved" dec = none)
    (hdec2 : alistGet (decisionPath wfid) fs2 = some (FileContent.badJson raw)) :
    read_review_decision fs1 wfid now = Except.ok (some
      { approved := Json.bool false, feedback := alistGet "feedback" dec,
        reviewer_notes := alistGet "notes" dec, timestamp := some now }) ∧
    (review_proposal fs1 proposal bdir stem suffix wfid now cycle).1.status =
      "rejected" ∧
    (review_proposal fs1 proposal bdir stem suffix wfid now cycle).1.patch_applied =
      false ∧
    read_review_decision fs2 wfid now = Except.ok none ∧
    (review_proposal fs2 proposal bdir stem suffix wfid now cycle).1.status =
      "pending_review" ∧
    (review_proposal fs2 proposal bdir stem suffix wfid now cycle).1.success =
      true := by
  have hcond : (decide (proposal.status = "disabled") ||
      (proposal.param_actions.isEmpty && proposal.range_refinements.isEmpty &&
        proposal.ea_patch.isNone)) = false := by
    rcases hcontent with hc | hc | hc <;> simp [hstatus, hc]
  have hread1 : read_review_decision fs1 wfid now = Except.ok (some
      { approved := Json.bool false, feedback := alistGet "feedback" dec,
        reviewer_notes := alistGet "notes" dec, timestamp := some now }) := by
    unfold read_review_decision
    rw [hdec1]
    simp only [hnoappr, Option.getD_none]
  have hread2 : read_review_decision fs2 wfid now = Except.ok none := by
    unfold read_review_decision
    rw [hdec2]
  refine ⟨hread1, ?_, ?_, hread2, ?_, ?_⟩
  · unfold review_proposal
    simp only [LLM_REVIEW_REQUIRED, Bool.not_true, Bool.false_eq_true, if_false,
      hcond, hread1, Json.pyTruthy]
    split <;> rfl
  · unfold review_proposal
    simp only [LLM_REVIEW_REQUIRED, Bool.not_true, Bool.false_eq_true, if_false,
      hcond, hread1, Json.pyTruthy]
    split <;> rfl
  · unfold review_proposal
    simp only [LLM_REVIEW_REQUIRED, Bool.not_true, Bool.false_eq_true, if_false,
      hcond, hread2]
  · unfold review_proposal
    simp only [LLM_REVIEW_REQUIRED, Bool.not_true, Bool.false_eq_true, if_false,
      hcond, hread2]

/-- C10 witness: a decision `{"note": "hi"}` without `approved`, and the
unparseable decision `not json`. -/
theorem review_decision_leniency_witness :
    read_review_decision fsDecisionNoApproved "wf" "t0" = Except.ok (some
      { approved := Json.bool false,
        feedback := alistGet "feedback" [("note", Json.str "hi")],
        reviewer_notes := alistGet "notes" [("note", Json.str "hi")],
        timestamp := some "t0" }) ∧
    (review_proposal fsDecisionNoApproved sampleProposalWithPatch "experts" "Alpha"
      ".mq5" "wf" "t0" 0).1.status = "rejected" ∧
    (review_proposal fsDecisionNoApproved sampleProposalWithPatch "experts" "Alpha"
      ".mq5" "wf" "t0" 0).1.patch_applied = false ∧
    read_review_decision fsDecisionBadJson "wf" "t0" = Except.ok none ∧
    (review_proposal fsDecisionBadJson sampleProposalWithPatch "experts" "Alpha"
      ".mq5" "wf" "t0" 0).1.status = "pending_review" ∧
    (review_proposal fsDecisionBadJson sampleProposalWithPatch "experts" "Alpha"
      ".mq5" "wf" "t0" 0).1.success = true :=
  review_decision_leniency fsDecisionNoApproved fsDecisionBadJson
    sampleProposalWithPatch "experts" "Alpha" ".mq5" "wf" "t0" 0
    [("note", Json.str "hi")] "not json"
    (by decide) (Or.inl rfl) rfl rfl rfl

/-- C9: serialization round-trip: `from_dict(to_dict(w))` reproduces the
workflow's top-level status and the identical step-id→step-status mapping. -/
theorem workflow_serialization_roundtrip (w : WorkflowState) :
    (WorkflowState.from_dict w.to_dict).map (fun w2 => w2.status) =
      some w.status ∧
    (WorkflowState.from_dict w.to_dict).map
        (fun w2 => w2.steps.map (fun p => (p.1, p.2.status))) =
      some (w.steps.map (fun p => (p.1, p.2.status))) := by
  rw [workflowState_from_to]
  exact ⟨rfl, rfl⟩

/-- A needle without newlines never matches across a newline boundary:
prefix matching against `a ++ '\n' :: rest` agrees with matching against `a`. -/
theorem isPrefixOf_newline_cut (n a rest : List Char) (h : '\n' ∉ n) :
    List.isPrefixOf n (a ++ '\n' :: rest) = List.isPrefixOf n a := by
  induction n generalizing a with
  | nil => simp [List.isPrefixOf]
  | cons p ps ih =>
    cases a with
    | nil =>
      have hp : p ≠ '\n' := fun he => h (he ▸ List.mem_cons_self p ps)
      simp [List.isPrefixOf, hp]
    | cons c a2 =>
      have hps : '\n' ∉ ps := fun he => h (List.mem_cons_of_mem _ he)
      simp [List.isPrefixOf, ih a2 hps]

/-- Substring search of a newline-free, nonempty needle distributes over a
newline boundary. -/
theorem listContainsSub_newline_cut (a rest n : List Char) (hne : n ≠ [])
    (h : '\n' ∉ n) :
    listContainsSub (a ++ '\n' :: rest) n =
      (listContainsSub a n || listContainsSub rest n) := by
  obtain ⟨p, ps, rfl⟩ : ∃ p ps, n = p :: ps := by
    cases n with
    | nil => exact absurd rfl hne
    | cons p ps => exact ⟨p, ps, rfl⟩
  induction a with
  | nil =>
    have hp : p ≠ '\n' := fun he => h (he ▸ List.mem_cons_self p ps)
    simp [listContainsSub, List.isPrefixOf, hp]
  | cons c a2 ih =>
    have hcut := isPrefixOf_newline_cut (p :: ps) (c :: a2) rest h
    simp only [List.cons_append] at hcut ⊢
    simp only [listContainsSub, ih, hcut]
    cases List.isPrefixOf (p :: ps) (c :: a2) <;> simp [Bool.or_assoc]

/-- Substring search of a newline-free, nonempty needle in a joined line
list is the disjunction of the per-line searches. -/
theorem strContains_joinLines (ls : List String) (n : String)
    (hne : n.data ≠ []) (h : '\n' ∉ n.data) :
    strContains (joinLines ls) n = ls.any (fun l => strContains l n) := by
  induction ls with
  | nil =>
    obtain ⟨p, ps, hn⟩ : ∃ p ps, n.data = p :: ps := by
      cases hd : n.data with
      | nil => exact absurd hd hne
      | cons p ps => exact ⟨p, ps, rfl⟩
    simp [joinLines, strContains, hn, listContainsSub]
  | cons l tail ih =>
    cases tail with
    | nil => simp [joinLines, strContains]
    | cons l2 rest =>
      have ih2 := ih
      have hj : joinLines (l :: l2 :: rest) = l ++ "\n" ++ joinLines (l2 :: rest) :=
        rfl
      have hdata : (l ++ "\n" ++ joinLines (l2 :: rest)).data
          = l.data ++ '\n' :: (joinLines (l2 :: rest)).data := by
        have h1 : ("\n" : String).data = ['\n'] := rfl
        simp [String.data_append, h1]
      simp only [strContains] at ih2 ⊢
      rw [hj, hdata, listContainsSub_newline_cut _ _ _ hne h, ih2]
      simp [List.any_cons, strContains]

/-- `splitLinesAux` on newline-free input yields the single accumulated
line. -/
theorem splitLinesAux_no_newline (l : List Char) (acc : List Char)
    (h : '\n' ∉ l) :
    splitLinesAux l acc = [acc.reverse ++ l] := by
  induction l generalizing acc with
  | nil => simp [splitLinesAux]
  | cons c cs ih =>
    have hc : c ≠ '\n' := fun he => h (he ▸ List.mem_cons_self c cs)
    have hcs : '\n' ∉ cs := fun he => h (List.mem_cons_of_mem _ he)
    simp [splitLinesAux, hc, ih (c :: acc) hcs, List.reverse_cons,
      List.append_assoc]

/-- `splitLinesAux` splits at the first newline after a newline-free
prefix. -/
theorem splitLinesAux_newline_cut (l rest : List Char) (acc : List Char)
    (h : '\n' ∉ l) :
    splitLinesAux (l ++ '\n' :: rest) acc =
      (acc.reverse ++ l) :: splitLinesAux rest [] := by
  induction l generalizing acc with
  | nil => simp [splitLinesAux]
  | cons c cs ih =>
    have hc : c ≠ '\n' := fun he => h (he ▸ List.mem_cons_self c cs)
    have hcs : '\n' ∉ cs := fun he => h (List.mem_cons_of_mem _ he)
    simp [splitLinesAux, hc, ih _ hcs, List.reverse_cons, List.append_assoc]

/-- Split-join roundtrip: `strLines (joinLines ls) = ls` for a nonempty
list of newline-free lines. -/
theorem strLines_joinLines (ls : List String)
    (h : ∀ l ∈ ls, '\n' ∉ l.data) (hne : ls ≠ []) :
    strLines (joinLines ls) = ls := by
  induction ls with
  | nil => exact absurd rfl hne
  | cons l tail ih =>
    cases tail with
    | nil =>
      have hl : '\n' ∉ l.data := h l (List.mem_cons_self _ _)
      simp [strLines, joinLines, splitLinesAux_no_newline _ _ hl]
    | cons l2 rest =>
      have hl : '\n' ∉ l.data := h l (List.mem_cons_self _ _)
      have htail : ∀ x ∈ l2 :: rest, '\n' ∉ x.data := fun x hx =>
        h x (List.mem_cons_of_mem _ hx)
      have ih2 := ih htail (by simp)
      have hj : joinLines (l :: l2 :: rest) = l ++ "\n" ++ joinLines (l2 :: rest) :=
        rfl
      have hdata : (l ++ "\n" ++ joinLines (l2 :: rest)).data
          = l.data ++ '\n' :: (joinLines (l2 :: rest)).data := by
        have h1 : ("\n" : String).data = ['\n'] := rfl
        simp [String.data_append, h1]
      simp only [strLines] at ih2 ⊢
      rw [hj, hdata, splitLinesAux_newline_cut _ _ _ hl]
      simp only [List.map_cons, ih2, List.reverse_nil, List.nil_append]

/-- `joinLines` over a concatenation of nonempty line lists, at the level
of character data. -/
theorem joinLines_data_append (xs ys : List String) (hx : xs ≠ [])
    (hy : ys ≠ []) :
    (joinLines (xs ++ ys)).data =
      (joinLines xs).data ++ '\n' :: (joinLines ys).data := by
  induction xs with
  | nil => exact absurd rfl hx
  | cons x tail ih =>
    cases tail with
    | nil =>
      obtain ⟨y, ys2, rfl⟩ : ∃ y ys2, ys = y :: ys2 := by
        cases ys with
        | nil => exact absurd rfl hy
        | cons a b => exact ⟨a, b, rfl⟩
      have hj : joinLines ([x] ++ y :: ys2) = x ++ "\n" ++ joinLines (y :: ys2) :=
        rfl
      have h1 : ("\n" : String).data = ['\n'] := rfl
      rw [hj]
      simp [String.data_append, h1, joinLines]
    | cons x2 xtail =>
      have ih2 := ih (by simp)
      have hj : joinLines ((x :: x2 :: xtail) ++ ys)
          = x ++ "\n" ++ joinLines ((x2 :: xtail) ++ ys) := rfl
      have hj2 : joinLines (x :: x2 :: xtail)
          = x ++ "\n" ++ joinLines (x2 :: xtail) := rfl
      have h1 : ("\n" : String).data = ['\n'] := rfl
      rw [hj, hj2]
      simp only [String.data_append, h1]
      rw [ih2]
      simp [List.append_assoc]

/-- The rerun source is the join of its line list. -/
theorem ontesterRerunSource_eq :
    ontesterRerunSource = joinLines ontesterRerunLines := by
  have hx : cleanEaLines ≠ [] := by simp [cleanEaLines]
  have hy : ("" :: genOntesterLines 10) ≠ [] := by simp
  have h := joinLines_data_append cleanEaLines ("" :: genOntesterLines 10) hx hy
  have h3 : joinLines ("" :: genOntesterLines 10)
      = "" ++ "\n" ++ joinLines (genOntesterLines 10) := rfl
  apply String.ext
  rw [show ontesterRerunLines = cleanEaLines ++ ("" :: genOntesterLines 10) from
    rfl, h, h3]
  have h4 : (("" : String) ++ "\n" ++ joinLines (genOntesterLines 10)).data
      = '\n' :: (joinLines (genOntesterLines 10)).data := by
    rw [String.data_append]
    have h5 : ((("" : String) ++ "\n")).data = ['\n'] := rfl
    rw [h5]
    rfl
  rw [h4]
  rw [show ontesterRerunSource = cleanEaSource ++ "\n\n" ++ genOntesterCode 10
    from rfl]
  rw [String.data_append, String.data_append]
  have h1 : ("\n\n" : String).data = ['\n', '\n'] := rfl
  rw [h1]
  rw [show cleanEaSource = joinLines cleanEaLines from rfl]
  rw [show genOntesterCode 10 = joinLines (genOntesterLines 10) from rfl]
  simp [List.append_assoc]

/-- The marker substring the detector searches for never occurs in the
rerun source: the generated marker line starts with a pipe (`//|`), not
with the searched `// ` prefix. -/
theorem rerun_no_marker :
    strContains ontesterRerunSource "// EA_STRESS_ONTESTER_INJECTED" = false := by
  rw [ontesterRerunSource_eq,
    strContains_joinLines _ _ (by decide) (by decide)]
  decide

set_option maxRecDepth 8000 in
/-- The generated code declares OnTester on a non-comment line, so the
rerun source triggers the OnTester detector. -/
theorem rerun_detects_ontester : detectOnTester ontesterRerunSource = true := by
  rw [ontesterRerunSource_eq]
  simp only [detectOnTester]
  rw [strLines_joinLines _ (by decide) (by decide)]
  decide

set_option maxRecDepth 4000 in
/-- C6: the OnTester injector violates its decision table on its own output.
A first run on a clean EA reports `injected`, writes exactly the new
distinctly-named artifact and leaves the original byte-for-byte unmodified;
but a second run on that prior output reports `conflict` (and writes
nothing) instead of `already_present`: the marker line the generator emits
reads `//| EA_STRESS_ONTESTER_INJECTED` while the detector searches for the
substring `// EA_STRESS_ONTESTER_INJECTED`, which never occurs in the
generated code. -/
theorem ontester_rerun_conflicts_on_own_output :
    (inject_ontester fsCleanEa ⟨"experts", "Clean.mq5"⟩ "out" 10).1.status =
      "injected" ∧
    (inject_ontester fsCleanEa ⟨"experts", "Clean.mq5"⟩ "out" 10).2 =
      [(⟨"out", "Clean_ontester.mq5"⟩, FileContent.textFile ontesterRerunSource)] ∧
    alistGet ⟨"experts", "Clean.mq5"⟩ fsAfterOnTesterInjection =
      some (FileContent.textFile cleanEaSource) ∧
    alistGet ⟨"out", "Clean_ontester.mq5"⟩ fsAfterOnTesterInjection =
      some (FileContent.textFile ontesterRerunSource) ∧
    (inject_ontester fsAfterOnTesterInjection ⟨"out", "Clean_ontester.mq5"⟩
        "out2" 10).1.status = "conflict" ∧
    (inject_ontester fsAfterOnTesterInjection ⟨"out", "Clean_ontester.mq5"⟩
        "out2" 10).2 = [] := by
  have hsrc : alistGet ⟨"out", "Clean_ontester.mq5"⟩ fsAfterOnTesterInjection
      = some (FileContent.textFile ontesterRerunSource) := rfl
  refine ⟨rfl, rfl, rfl, hsrc, ?_, ?_⟩ <;>
    simp [inject_ontester, hsrc, rerun_no_marker, rerun_detects_ontester]

/-- A stretch with no `/*` (and no open forming across its end) is copied
verbatim by the block-comment pass. -/
theorem removeBlockComments_copy (x rest : List Char)
    (hx : listContainsSub x ['/', '*'] = false)
    (hb : x.getLast? = some '/' → rest.head? = some '*' → False) :
    removeBlockComments (x ++ rest) = x ++ removeBlockComments rest := by
  induction x with
  | nil => simp
  | cons c x2 ih =>
    have hx' : List.isPrefixOf ['/', '*'] (c :: x2) = false ∧
        listContainsSub x2 ['/', '*'] = false := by
      simpa only [listContainsSub, Bool.or_eq_false_iff] using hx
    cases x2 with
    | nil =>
      cases rest with
      | nil => simp [removeBlockComments]
      | cons r rest2 =>
        have hcr : ¬(c = '/' ∧ r = '*') := by
          rintro ⟨h1, h2⟩
          exact hb (by simp [h1]) (by simp [h2])
        simp [removeBlockComments, hcr]
    | cons c2 x3 =>
      have hcc : ¬(c = '/' ∧ c2 = '*') := by
        rintro ⟨h1, h2⟩
        subst h1; subst h2
        simp [List.isPrefixOf] at hx'
      have hb2 : (c2 :: x3).getLast? = some '/' → rest.head? = some '*' → False := by
        intro h1 h2
        exact hb (by rw [List.getLast?_cons_cons]; exact h1) h2
      have ih2 := ih hx'.2 hb2
      simp only [List.cons_append] at ih2 ⊢
      simp only [removeBlockComments]
      rw [if_neg hcc, ih2]

/-- The first `*/` after a block open is the block's own terminator when
the body holds none. -/
theorem findStarSlash_terminator (b t : List Char)
    (hb : listContainsSub b ['*', '/'] = false) :
    findStarSlash (b ++ '*' :: '/' :: t) = some b.length := by
  induction b with
  | nil => simp [findStarSlash]
  | cons c b2 ih =>
    have hb' : List.isPrefixOf ['*', '/'] (c :: b2) = false ∧
        listContainsSub b2 ['*', '/'] = false := by
      simpa only [listContainsSub, Bool.or_eq_false_iff] using hb
    cases b2 with
    | nil => simp [findStarSlash]
    | cons c2 b3 =>
      have hcc : ¬(c = '*' ∧ c2 = '/') := by
        rintro ⟨h1, h2⟩
        subst h1; subst h2
        simp [List.isPrefixOf] at hb'
      have ih2 := ih hb'.2
      simp only [List.cons_append] at ih2 ⊢
      simp only [findStarSlash]
      rw [if_neg hcc, ih2]
      simp

/-- The block-comment pass removes a balanced block entirely and resumes
right after its terminator. -/
theorem removeBlockComments_block (b t : List Char)
    (hb : listContainsSub b ['*', '/'] = false) :
    removeBlockComments ('/' :: '*' :: (b ++ '*' :: '/' :: t)) =
      removeBlockComments t := by
  have h1 := findStarSlash_terminator b t hb
  have hstep : removeBlockComments ('/' :: '*' :: (b ++ '*' :: '/' :: t))
      = (match findStarSlash (b ++ '*' :: '/' :: t) with
         | some k => removeBlockComments ((b ++ '*' :: '/' :: t).drop (k + 2))
         | none => '/' :: '*' :: (b ++ '*' :: '/' :: t)) := by
    rw [removeBlockComments.eq_def]
    rfl
  rw [hstep, h1]
  show removeBlockComments ((b ++ '*' :: '/' :: t).drop (b.length + 2)) =
    removeBlockComments t
  congr 1
  rw [show b ++ '*' :: '/' :: t = (b ++ ['*', '/']) ++ t by simp]
  rw [show b.length + 2 = (b ++ ['*', '/']).length by simp]
  exact List.drop_left _ _

/-- A stretch with no `//` (and no comment opener forming across its end)
is copied verbatim by the line-comment pass. -/
theorem removeLineComments_copy (x rest : List Char)
    (hx : listContainsSub x ['/', '/'] = false)
    (hb : x.getLast? = some '/' → rest.head? = some '/' → False) :
    removeLineComments (x ++ rest) = x ++ removeLineComments rest := by
  induction x with
  | nil => simp
  | cons c x2 ih =>
    have hx' : List.isPrefixOf ['/', '/'] (c :: x2) = false ∧
        listContainsSub x2 ['/', '/'] = false := by
      simpa only [listContainsSub, Bool.or_eq_false_iff] using hx
    cases x2 with
    | nil =>
      cases rest with
      | nil => simp [removeLineComments]
      | cons r rest2 =>
        have hcr : ¬(c = '/' ∧ r = '/') := by
          rintro ⟨h1, h2⟩
          exact hb (by simp [h1]) (by simp [h2])
        simp [removeLineComments, hcr]
    | cons c2 x3 =>
      have hcc : ¬(c = '/' ∧ c2 = '/') := by
        rintro ⟨h1, h2⟩
        subst h1; subst h2
        simp [List.isPrefixOf] at hx'
      have hb2 : (c2 :: x3).getLast? = some '/' → rest.head? = some '/' → False := by
        intro h1 h2
        exact hb (by rw [List.getLast?_cons_cons]; exact h1) h2
      have ih2 := ih hx'.2 hb2
      simp only [List.cons_append] at ih2 ⊢
      simp only [removeLineComments]
      rw [if_neg hcc, ih2]

/-- `[^\n]*` stops exactly at the first newline. -/
theorem dropWhile_until_newline (s t : List Char) (h : '\n' ∉ s) :
    (s ++ '\n' :: t).dropWhile (fun x => !(x = '\n')) = '\n' :: t := by
  induction s with
  | nil => simp [List.dropWhile]
  | cons c cs ih =>
    have hc : c ≠ '\n' := fun he => h (he ▸ List.mem_cons_self c cs)
    have hcs : '\n' ∉ cs := fun he => h (List.mem_cons_of_mem _ he)
    simp [List.dropWhile, hc, ih hcs]

/-- `[^\n]*` consumes a newline-free tail entirely. -/
theorem dropWhile_no_newline (s : List Char) (h : '\n' ∉ s) :
    s.dropWhile (fun x => !(x = '\n')) = [] := by
  induction s with
  | nil => simp
  | cons c cs ih =>
    have hc : c ≠ '\n' := fun he => h (he ▸ List.mem_cons_self c cs)
    have hcs : '\n' ∉ cs := fun he => h (List.mem_cons_of_mem _ he)
    simp [List.dropWhile, hc, ih hcs]

/-- Membership gives a single-character substring match. -/
theorem listContainsSub_single_of_mem (c : Char) (l : List Char) (h : c ∈ l) :
    listContainsSub l [c] = true := by
  induction l with
  | nil => cases h
  | cons a as ih =>
    simp only [listContainsSub, Bool.or_eq_true]
    rcases List.mem_cons.mp h with rfl | hm
    · left
      simp [List.isPrefixOf]
    · right
      exact ih hm

/-- The block-comment pass erases exactly the block-comment segments of a
well-formed decomposition. -/
theorem removeBlockComments_segs (segs : List SrcSeg) (hw : wfSegs segs = true) :
    removeBlockComments (renderSegsData segs) = renderNoBlocksData segs := by
  induction segs with
  | nil => simp [renderSegsData, renderNoBlocksData, removeBlockComments]
  | cons seg rest ih =>
    have hall : segOk seg = true ∧ rest.all segOk = true := by
      simp only [wfSegs, Bool.and_eq_true, List.all_cons] at hw
      exact ⟨hw.1.1, hw.1.2⟩
    have hchain : chainOk (seg :: rest) = true := by
      simp only [wfSegs, Bool.and_eq_true] at hw
      exact hw.2
    cases seg with
    | code s =>
      obtain ⟨h1, h2, h3, h4, h5⟩ : strContains s "//" = false ∧
          strContains s "/*" = false ∧ s.data.head? ≠ some '/' ∧
          s.data.head? ≠ some '*' ∧ s.data.getLast? ≠ some '/' := by
        have h := hall.1
        simp only [segOk, Bool.and_eq_true, Bool.not_eq_true',
          beq_eq_false_iff_ne] at h
        tauto
      have hchainrest : chainOk rest = true := by
        simpa only [chainOk] using hchain
      have hwrest : wfSegs rest = true := by
        simp only [wfSegs, Bool.and_eq_true]
        exact ⟨hall.2, hchainrest⟩
      have hx : listContainsSub s.data ['/', '*'] = false := by
        have he : strContains s "/*" = listContainsSub s.data ['/', '*'] := rfl
        rw [← he]
        exact h2
      have hcopy := removeBlockComments_copy s.data (renderSegsData rest) hx
        (fun hl _ => h5 hl)
      simp only [renderSegsData, renderSegData]
      rw [hcopy, ih hwrest]
      simp [renderNoBlocksData, renderSegData]
    | lineComment s =>
      obtain ⟨h1, h2, h3⟩ : strContains s "\n" = false ∧
          strContains s "/*" = false ∧ s.data.head? ≠ some '*' := by
        have h := hall.1
        simp only [segOk, Bool.and_eq_true, Bool.not_eq_true',
          beq_eq_false_iff_ne] at h
        tauto
      have hnext : (renderSegsData rest).head? ≠ some '*' ∧ chainOk rest = true := by
        cases rest with
        | nil =>
          constructor
          · simp [renderSegsData]
          · simp [chainOk]
        | cons next rest2 =>
          simp only [chainOk, Bool.and_eq_true] at hchain
          obtain ⟨hm, hc2⟩ := hchain
          refine ⟨?_, hc2⟩
          cases next with
          | code t =>
            have hm2 : t.data.head? = some '\n' := by simpa using hm
            simp only [renderSegsData, renderSegData]
            cases hd : t.data with
            | nil =>
              rw [hd] at hm2
              simp at hm2
            | cons a as =>
              rw [hd] at hm2
              simp at hm2
              simp [hm2]
          | lineComment u => simp at hm
          | blockComment u => simp at hm
      have hx : listContainsSub ('/' :: '/' :: s.data) ['/', '*'] = false := by
        simp only [listContainsSub, Bool.or_eq_false_iff]
        refine ⟨by simp [List.isPrefixOf], ?_, ?_⟩
        · cases hd : s.data with
          | nil => simp [List.isPrefixOf]
          | cons a as =>
            have ha : a ≠ '*' := by
              intro he
              apply h3
              rw [hd, he]
              rfl
            simp [List.isPrefixOf, Ne.symm ha]
        · have he : strContains s "/*" = listContainsSub s.data ['/', '*'] := rfl
          rw [← he]
          exact h2
      have hwrest : wfSegs rest = true := by
        simp only [wfSegs, Bool.and_eq_true]
        exact ⟨hall.2, hnext.2⟩
      have hcopy := removeBlockComments_copy ('/' :: '/' :: s.data)
        (renderSegsData rest) hx (fun _ hr => hnext.1 hr)
      simp only [renderSegsData, renderSegData]
      simp only [List.cons_append] at hcopy ⊢
      rw [hcopy, ih hwrest]
      simp [renderNoBlocksData, renderSegData]
    | blockComment s =>
      have h1 : strContains s "*/" = false := by
        have h := hall.1
        simpa only [segOk, Bool.not_eq_true'] using h
      have hchainrest : chainOk rest = true := by
        simpa only [chainOk] using hchain
      have hwrest : wfSegs rest = true := by
        simp only [wfSegs, Bool.and_eq_true]
        exact ⟨hall.2, hchainrest⟩
      have hx : listContainsSub s.data ['*', '/'] = false := by
        have he : strContains s "*/" = listContainsSub s.data ['*', '/'] := rfl
        rw [← he]
        exact h1
      have hshape : renderSegsData (SrcSeg.blockComment s :: rest)
          = '/' :: '*' :: (s.data ++ '*' :: '/' :: renderSegsData rest) := by
        simp [renderSegsData, renderSegData, List.append_assoc]
      rw [hshape, removeBlockComments_block _ _ hx, ih hwrest]
      simp [renderNoBlocksData]

/-- The line-comment pass erases exactly the line-comment segments of the
block-free rendering of a well-formed decomposition. -/
theorem removeLineComments_segs (segs : List SrcSeg) (hw : wfSegs segs = true) :
    removeLineComments (renderNoBlocksData segs) = renderCodeData segs := by
  induction segs with
  | nil => simp [renderNoBlocksData, renderCodeData, removeLineComments]
  | cons seg rest ih =>
    have hall : segOk seg = true ∧ rest.all segOk = true := by
      simp only [wfSegs, Bool.and_eq_true, List.all_cons] at hw
      exact ⟨hw.1.1, hw.1.2⟩
    have hchain : chainOk (seg :: rest) = true := by
      simp only [wfSegs, Bool.and_eq_true] at hw
      exact hw.2
    cases seg with
    | code s =>
      obtain ⟨h1, h2, h3, h4, h5⟩ : strContains s "//" = false ∧
          strContains s "/*" = false ∧ s.data.head? ≠ some '/' ∧
          s.data.head? ≠ some '*' ∧ s.data.getLast? ≠ some '/' := by
        have h := hall.1
        simp only [segOk, Bool.and_eq_true, Bool.not_eq_true',
          beq_eq_false_iff_ne] at h
        tauto
      have hchainrest : chainOk rest = true := by
        simpa only [chainOk] using hchain
      have hwrest : wfSegs rest = true := by
        simp only [wfSegs, Bool.and_eq_true]
        exact ⟨hall.2, hchainrest⟩
      have hx : listContainsSub s.data ['/', '/'] = false := by
        have he : strContains s "//" = listContainsSub s.data ['/', '/'] := rfl
        rw [← he]
        exact h1
      have hcopy := removeLineComments_copy s.data (renderNoBlocksData rest) hx
        (fun hl _ => h5 hl)
      simp only [renderNoBlocksData, renderSegData]
      rw [hcopy, ih hwrest]
      simp [renderCodeData]
    | blockComment s =>
      have hchainrest : chainOk rest = true := by
        simpa only [chainOk] using hchain
      have hwrest : wfSegs rest = true := by
        simp only [wfSegs, Bool.and_eq_true]
        exact ⟨hall.2, hchainrest⟩
      simp only [renderNoBlocksData]
      rw [ih hwrest]
      simp [renderCodeData]
    | lineComment s =>
      obtain ⟨h1, h2, h3⟩ : strContains s "\n" = false ∧
          strContains s "/*" = false ∧ s.data.head? ≠ some '*' := by
        have h := hall.1
        simp only [segOk, Bool.and_eq_true, Bool.not_eq_true',
          beq_eq_false_iff_ne] at h
        tauto
      have hnl : '\n' ∉ s.data := by
        intro hm
        have he : strContains s "\n" = listContainsSub s.data ['\n'] := rfl
        rw [he, listContainsSub_single_of_mem _ _ hm] at h1
        cases h1
      cases rest with
      | nil =>
        simp only [renderNoBlocksData, renderSegData, renderCodeData,
          List.append_nil]
        have hstep : removeLineComments ('/' :: '/' :: s.data)
            = removeLineComments (s.data.dropWhile (fun x => !(x = '\n'))) := by
          rw [removeLineComments.eq_def]
          rfl
        rw [hstep, dropWhile_no_newline s.data hnl]
        simp [removeLineComments]
      | cons next rest2 =>
        simp only [chainOk, Bool.and_eq_true] at hchain
        obtain ⟨hm, hc2⟩ := hchain
        cases next with
        | lineComment u => simp at hm
        | blockComment u => simp at hm
        | code t =>
          have hm2 : t.data.head? = some '\n' := by simpa using hm
          obtain ⟨t2, ht⟩ : ∃ t2, t.data = '\n' :: t2 := by
            cases hd : t.data with
            | nil =>
              rw [hd] at hm2
              simp at hm2
            | cons a as =>
              rw [hd] at hm2
              simp at hm2
              exact ⟨as, by rw [hm2]⟩
          have hwrest : wfSegs (SrcSeg.code t :: rest2) = true := by
            simp only [wfSegs, Bool.and_eq_true]
            exact ⟨hall.2, hc2⟩
          have hstep : removeLineComments
              (renderNoBlocksData (SrcSeg.lineComment s :: SrcSeg.code t :: rest2))
              = removeLineComments
                ((s.data ++ (t.data ++ renderNoBlocksData rest2)).dropWhile
                  (fun x => !(x = '\n'))) := by
            simp only [renderNoBlocksData, renderSegData, List.cons_append,
              List.append_assoc]
            rw [removeLineComments.eq_def]
            rfl
          rw [hstep]
          rw [show s.data ++ (t.data ++ renderNoBlocksData rest2)
              = s.data ++ '\n' :: (t2 ++ renderNoBlocksData rest2) by
            rw [ht]; simp]
          rw [dropWhile_until_newline _ _ hnl]
          have hI := ih hwrest
          have hshape2 : renderNoBlocksData (SrcSeg.code t :: rest2)
              = '\n' :: (t2 ++ renderNoBlocksData rest2) := by
            simp only [renderNoBlocksData, renderSegData]
            rw [ht]
            simp
          rw [hshape2] at hI
          rw [hI]
          simp only [renderCodeData]

/-- On a well-formed segment decomposition, `stripComments` yields exactly
the code text: both comment styles are erased before the conflict scan. -/
theorem stripComments_renderSegs (segs : List SrcSeg) (hw : wfSegs segs = true) :
    stripComments (renderSegs segs) = renderCode segs := by
  have h1 := removeBlockComments_segs segs hw
  have h2 := removeLineComments_segs segs hw
  show (⟨removeLineComments (removeBlockComments (renderSegsData segs))⟩ : String)
    = ⟨renderCodeData segs⟩
  rw [h1, h2]

set_option maxRecDepth 4000 in
/-- C7 counterexample: an EA whose only OnTester declaration sits inside a
`/* ... */` block comment.  Comment stripping (as the safety injector does
it) leaves no `OnTester` text at all, yet the OnTester injector — whose
scan only skips lines whose stripped form starts with `//` — still reports
`conflict` and writes nothing, so block-comment text does trigger its
detection. -/
theorem ontester_block_comment_conflict_counterexample :
    strContains (stripComments ontesterBlockCommentSource) "OnTester" = false ∧
    (inject_ontester fsOntesterBlockComment ⟨"experts", "Commented.mq5"⟩
        "out" 10).1.status = "conflict" ∧
    (inject_ontester fsOntesterBlockComment ⟨"experts", "Commented.mq5"⟩
        "out" 10).2 = [] := by
  have hds : ontesterBlockCommentSource = renderSegs ontesterBlockCommentSegs := by
    decide
  refine ⟨?_, ?_, ?_⟩
  · rw [hds, stripComments_renderSegs _ (by decide)]
    decide
  · rfl
  · rfl

set_option maxRecDepth 4000 in
/-- C7 amended: comment-awareness as implemented.  (1) The OnTester
detector never fires on a source all of whose lines are single-line
comments or fail the declaration pattern — in particular `//`-commented
declarations never trigger it (block comments are not handled, see the
counterexample).  (2) The safety injector is fully comment-aware: on any
well-formed decomposition of the source into code, `//`- and `/* */`-
segments, its `stripComments` erases exactly the comment segments, so
(3) whenever the code text alone is conflict-free (and the marker is
absent) the safety injector reports `injected` — constructs appearing
only inside either comment style never yield `conflict`. -/
theorem injector_comment_awareness_amended :
    (∀ ls : List String, (∀ l ∈ ls, '\n' ∉ l.data) → ls ≠ [] →
      (∀ l ∈ ls, strStartsWith (strStrip l) "//" = true ∨
        matchOnTesterDecl l = false) →
      detectOnTester (joinLines ls) = false) ∧
    (∀ segs : List SrcSeg, wfSegs segs = true →
      stripComments (renderSegs segs) = renderCode segs) ∧
    (∀ (fs : FS) (p : FPath) (segs : List SrcSeg), wfSegs segs = true →
      alistGet p fs = some (FileContent.textFile (renderSegs segs)) →
      strContains (renderSegs segs) "EA_STRESS_SAFETY_INJECTED" = false →
      safetyConflicts (renderCode segs) = [] →
      (inject_safety_guards fs p none "3.0" "3.0").1.status = "injected") := by
  refine ⟨?_, stripComments_renderSegs, ?_⟩
  · intro ls hnl hne hcomm
    simp only [detectOnTester]
    rw [strLines_joinLines ls hnl hne]
    rw [List.any_eq_false]
    intro l hl
    rcases hcomm l hl with hc | hm
    · simp [hc]
    · simp [hm]
  · intro fs p segs hw halist hmarker hconf
    simp only [inject_safety_guards, halist, hmarker, Bool.false_eq_true,
      if_false, stripComments_renderSegs segs hw, hconf, List.isEmpty_nil,
      if_true]

set_option maxRecDepth 4000 in
/-- Closed instance of the comment-awareness theorem: a `//`-commented
declaration does not trigger the OnTester detector; the demo decomposition
strips to its code; and the safety injector reports `injected` although
every conflict construct is mentioned inside its comments. -/
theorem injector_comment_awareness_amended_witness :
    detectOnTester (joinLines ["// double OnTester()", "int OnInit()"]) = false ∧
    stripComments (renderSegs demoSafetySegs) = renderCode demoSafetySegs ∧
    (inject_safety_guards fsSafetyDemo ⟨"experts", "Demo.mq5"⟩ none "3.0"
        "3.0").1.status = "injected" :=
  ⟨injector_comment_awareness_amended.1 ["// double OnTester()", "int OnInit()"]
      (by decide) (by decide) (by decide),
   injector_comment_awareness_amended.2.1 demoSafetySegs (by decide),
   injector_comment_awareness_amended.2.2 fsSafetyDemo ⟨"experts", "Demo.mq5"⟩
      demoSafetySegs (by decide) rfl (by decide) (by decide)⟩

end EAStress
